import Mathlib

/-!
Verification development for the litigation-rag-prototype pipeline
(src/index.py, src/chunker.py, src/cloud_utils.py, src/ingest.py,
src/config.py, src/query.py), as a shallow embedding in Lean 4.

Python strings are modelled as `List Char` (Lean `Char` is a Unicode scalar
value; Python strings containing lone surrogates cannot be serialized to a
UTF-8 file and are outside the model).  JSON values as produced by Python's
`json` module are modelled by the inductive type `Json`; Python `None` and
JSON `null` are identified (after `json.load` they are indistinguishable).
JSON numbers are modelled for integers only: the pipeline's data
(`page_number`) is integer-or-null, and float parsing is outside the model
(the parser rejects a number continued by `.`/`e`/`E`).
-/

/-- Python strings are modelled as lists of Unicode scalar values. -/
abbrev Str := List Char

/-- The whitespace characters stripped by Python's `str.strip()`. -/
def pyWs (c : Char) : Bool :=
  c = ' ' || c = '\t' || c = '\n' || c = '\r' || c = '\x0b' || c = '\x0c'

/-- Python `str.strip()`: drop leading and trailing whitespace. -/
def pyStrip (s : Str) : Str :=
  ((s.dropWhile pyWs).reverse.dropWhile pyWs).reverse

/-- Python's substring test `a in b` for strings. -/
def isSubstr (a : Str) : Str → Bool
  | [] => a.isEmpty
  | c :: rest => a.isPrefixOf (c :: rest) || isSubstr a rest

/-- Strip a literal character sequence from the front of a string. -/
def dropLit : Str → Str → Option Str
  | [], s => some s
  | _ :: _, [] => none
  | c :: cs, d :: ds => if c = d then dropLit cs ds else none

/-- A run of `k` space characters. -/
def spaces (k : Nat) : Str := List.replicate k ' '

/-- The decimal digit character for `d < 10`. -/
def digitChar (d : Nat) : Char := Char.ofNat (48 + d)

/-- The numeric value of a decimal digit character. -/
def digitVal (c : Char) : Nat := c.toNat - 48

/-- Decimal rendering of a natural number, as Python's `str`/`repr` does. -/
def natRender (n : Nat) : Str :=
  if n = 0 then ['0'] else ((Nat.digits 10 n).map digitChar).reverse

/-- Decimal rendering of an integer, as Python's `json` module emits it. -/
def intRender : Int → Str
  | Int.ofNat n => natRender n
  | Int.negSucc m => '-' :: natRender (m + 1)

/-- Lower-case hexadecimal digit character for `d < 16` (Python `"%04x"`). -/
def hexDigit (d : Nat) : Char :=
  if d < 10 then Char.ofNat (48 + d) else Char.ofNat (87 + d)

/-- JSON values as loaded by Python's `json` module (integers only; Python
`None` and JSON `null` are identified; objects keep key insertion order,
as Python dicts do). -/
inductive Json where
  | null : Json
  | bool (b : Bool) : Json
  | num (n : Int) : Json
  | str (s : Str) : Json
  | arr (elems : List Json) : Json
  | obj (fields : List (Str × Json)) : Json
deriving Repr

mutual

/-- Decidable equality for `Json` (the `deriving` handler does not support
this nested inductive). -/
def jsonDecEq : (a b : Json) → Decidable (a = b)
  | .null, .null => isTrue rfl
  | .null, .bool _ => isFalse (fun h => nomatch h)
  | .null, .num _ => isFalse (fun h => nomatch h)
  | .null, .str _ => isFalse (fun h => nomatch h)
  | .null, .arr _ => isFalse (fun h => nomatch h)
  | .null, .obj _ => isFalse (fun h => nomatch h)
  | .bool _, .null => isFalse (fun h => nomatch h)
  | .bool a, .bool b =>
    if h : a = b then isTrue (by rw [h]) else isFalse (fun he => h (by injection he))
  | .bool _, .num _ => isFalse (fun h => nomatch h)
  | .bool _, .str _ => isFalse (fun h => nomatch h)
  | .bool _, .arr _ => isFalse (fun h => nomatch h)
  | .bool _, .obj _ => isFalse (fun h => nomatch h)
  | .num _, .null => isFalse (fun h => nomatch h)
  | .num _, .bool _ => isFalse (fun h => nomatch h)
  | .num a, .num b =>
    if h : a = b then isTrue (by rw [h]) else isFalse (fun he => h (by injection he))
  | .num _, .str _ => isFalse (fun h => nomatch h)
  | .num _, .arr _ => isFalse (fun h => nomatch h)
  | .num _, .obj _ => isFalse (fun h => nomatch h)
  | .str _, .null => isFalse (fun h => nomatch h)
  | .str _, .bool _ => isFalse (fun h => nomatch h)
  | .str _, .num _ => isFalse (fun h => nomatch h)
  | .str a, .str b =>
    if h : a = b then isTrue (by rw [h]) else isFalse (fun he => h (by injection he))
  | .str _, .arr _ => isFalse (fun h => nomatch h)
  | .str _, .obj _ => isFalse (fun h => nomatch h)
  | .arr _, .null => isFalse (fun h => nomatch h)
  | .arr _, .bool _ => isFalse (fun h => nomatch h)
  | .arr _, .num _ => isFalse (fun h => nomatch h)
  | .arr _, .str _ => isFalse (fun h => nomatch h)
  | .arr a, .arr b =>
    match jsonListDecEq a b with
    | isTrue h => isTrue (by rw [h])
    | isFalse h => isFalse (fun he => h (by injection he))
  | .arr _, .obj _ => isFalse (fun h => nomatch h)
  | .obj _, .null => isFalse (fun h => nomatch h)
  | .obj _, .bool _ => isFalse (fun h => nomatch h)
  | .obj _, .num _ => isFalse (fun h => nomatch h)
  | .obj _, .str _ => isFalse (fun h => nomatch h)
  | .obj _, .arr _ => isFalse (fun h => nomatch h)
  | .obj a, .obj b =>
    match jsonFieldsDecEq a b with
    | isTrue h => isTrue (by rw [h])
    | isFalse h => isFalse (fun he => h (by injection he))

/-- Decidable equality for lists of `Json` values. -/
def jsonListDecEq : (a b : List Json) → Decidable (a = b)
  | [], [] => isTrue rfl
  | [], _ :: _ => isFalse (fun h => nomatch h)
  | _ :: _, [] => isFalse (fun h => nomatch h)
  | x :: xs, y :: ys =>
    match jsonDecEq x y with
    | isTrue h1 =>
      match jsonListDecEq xs ys with
      | isTrue h2 => isTrue (by rw [h1, h2])
      | isFalse h2 => isFalse (fun he => h2 (by injection he))
    | isFalse h1 => isFalse (fun he => h1 (by injection he))

/-- Decidable equality for JSON object field lists. -/
def jsonFieldsDecEq : (a b : List (Str × Json)) → Decidable (a = b)
  | [], [] => isTrue rfl
  | [], _ :: _ => isFalse (fun h => nomatch h)
  | _ :: _, [] => isFalse (fun h => nomatch h)
  | (k, v) :: xs, (k', v') :: ys =>
    if hk : k = k' then
      match jsonDecEq v v' with
      | isTrue h1 =>
        match jsonFieldsDecEq xs ys with
        | isTrue h2 => isTrue (by rw [hk, h1, h2])
        | isFalse h2 => isFalse (fun he => h2 (by injection he))
      | isFalse h1 => isFalse (fun he => h1 (by injection he with he1 he2; injection he1))
    else isFalse (fun he => hk (by injection he with he1 he2; injection he1))

end

instance : DecidableEq Json := jsonDecEq

/-- Python `dict.get(key)` on a JSON object read from a file: a missing key
and a key whose value is JSON `null` both give Python `None`, modelled as
`Json.null`.  Non-object values never occur on the code paths the claims
cover (the indexer would raise `AttributeError` on them). -/
def dictGet (fields : List (Str × Json)) (key : Str) : Json :=
  match List.lookup key fields with
  | some v => v
  | none => Json.null

/-! ### src/index.py : the junk filter (`is_junk`) -/

/-- A `re.search(r'\[.*\]', s)`-style test: is there an occurrence of `open`
followed, with no intervening newline (`.` does not match `\n`), by
`close`?  Helper: does `close` occur before any newline? -/
def closesBeforeNl (close : Char) : Str → Bool
  | [] => false
  | c :: rest => if c = close then true else if c = '\n' then false else closesBeforeNl close rest

/-- The `re.search` test for the pattern `\[.*\]` (with `open` = `[`, `close` = `]`),
and likewise for braces. -/
def hasBracketPair (op cl : Char) : Str → Bool
  | [] => false
  | c :: rest => (c = op && closesBeforeNl cl rest) || hasBracketPair op cl rest

/-- The test `re.match(r'^\(Page: .*\)$', t)` where `t` has already been stripped:
`t` starts with `"(Page: "`, ends with `)`, and the part matched by `.*`
contains no newline.  (`$` may also match before one trailing newline;
handled for faithfulness although stripped input never ends in `\n`.) -/
def pageArtifactCore (t : Str) : Bool :=
  match dropLit ('(' :: 'P' :: 'a' :: 'g' :: 'e' :: ':' :: ' ' :: []) t with
  | none => false
  | some rest =>
    match rest.reverse with
    | [] => false
    | c :: midRev => c = ')' && !(midRev.contains '\n')

/-- Full `re.match(r'^\(Page: .*\)$', t)` including the `$`-before-final-`\n`
rule of Python regexes. -/
def pageArtifact (t : Str) : Bool :=
  pageArtifactCore t ||
    (match t.reverse with
     | '\n' :: front => pageArtifactCore front.reverse
     | _ => false)

/-- src/index.py `is_junk`, applied to the value of `chunk.get("text")`.
`Json.null` covers both Python `None` (missing key) and JSON `null`;
any non-string value is junk (`not isinstance(text, str)`), and so is the
empty string (`not text`). -/
def is_junk (v : Json) : Bool :=
  match v with
  | Json.str s =>
    if s.isEmpty then true
    else if (pyStrip s).length < 10 then true
    else if hasBracketPair '[' ']' s || hasBracketPair '\x7b' '\x7d' s then true
    else if pageArtifact (pyStrip s) then true
    else false
  | _ => true

/-! ### The proposition data model (src/chunker.py output, src/ingest.py file) -/

/-- An enriched proposition as built by `chunk_batch_into_propositions` and
written to the per-document JSON file: the Python dict
`{"text": ..., "document_name": ..., "page_number": ...}`. -/
structure Proposition where
  text : Str
  document_name : Str
  page_number : Option Int
deriving DecidableEq, Repr

/-- The JSON value denoted by an integer-or-null `page_number`. -/
def pageJson : Option Int → Json
  | none => Json.null
  | some i => Json.num i

/-- The JSON object (ordered dict) a `Proposition` denotes. -/
def propToJson (p : Proposition) : Json :=
  Json.obj [(['t','e','x','t'], Json.str p.text),
            (['d','o','c','u','m','e','n','t','_','n','a','m','e'], Json.str p.document_name),
            (['p','a','g','e','_','n','u','m','b','e','r'], pageJson p.page_number)]

/-! ### src/ingest.py : `json.dump(all_propositions, f, ensure_ascii=False, indent=4)` -/

/-- Escaping of one character in a JSON string literal, as Python's
`json.encoder.py_encode_basestring` does with `ensure_ascii=False`:
only `"`, `\` and control characters below `0x20` are escaped. -/
def escapeChar (c : Char) : Str :=
  if c = '"' then ['\\', '"']
  else if c = '\\' then ['\\', '\\']
  else if c = '\x08' then ['\\', 'b']
  else if c = '\x0c' then ['\\', 'f']
  else if c = '\n' then ['\\', 'n']
  else if c = '\r' then ['\\', 'r']
  else if c = '\t' then ['\\', 't']
  else if c.toNat < 32 then
    ['\\', 'u', '0', '0', hexDigit (c.toNat / 16), hexDigit (c.toNat % 16)]
  else [c]

/-- The escaped body of a JSON string literal. -/
def escBody (s : Str) : Str := (s.map escapeChar).flatten

/-- A serialized JSON string literal, quotes included. -/
def serStr (s : Str) : Str := '"' :: escBody s ++ ['"']

/-- Serialization of the `page_number` field value (`null` or an integer). -/
def serPage : Option Int → Str
  | none => ['n', 'u', 'l', 'l']
  | some i => intRender i

/-- One proposition dict as `json.dump` lays it out at list-item depth with
`indent=4`: keys in insertion order, `": "` separator, 8-space inner
indent, closing brace at 4-space indent. -/
def serPropLines (p : Proposition) : Str :=
  '\x7b' :: '\n' :: spaces 8 ++ serStr (['t','e','x','t']) ++ ':' :: ' ' :: serStr p.text
    ++ ',' :: '\n' :: spaces 8 ++ serStr (['d','o','c','u','m','e','n','t','_','n','a','m','e'])
    ++ ':' :: ' ' :: serStr p.document_name
    ++ ',' :: '\n' :: spaces 8 ++ serStr (['p','a','g','e','_','n','u','m','b','e','r'])
    ++ ':' :: ' ' :: serPage p.page_number
    ++ '\n' :: spaces 4 ++ ['\x7d']

/-- Python `json.dump(ps, f, ensure_ascii=False, indent=4)` for the list of
proposition dicts: `[]` for the empty list, otherwise one item per line
at 4-space indent, separated by `,`. -/
def dumpProps : List Proposition → Str
  | [] => ['[', ']']
  | p :: ps =>
    '[' :: '\n' :: spaces 4 ++ serPropLines p
      ++ (ps.map (fun q => ',' :: '\n' :: spaces 4 ++ serPropLines q)).flatten
      ++ '\n' :: [']']

/-! ### src/index.py `json.load` / src/chunker.py `json.loads` : the JSON parser -/

/-- The whitespace skipped by Python's `json` decoder (`' \t\n\r'`). -/
def jsonWs (c : Char) : Bool := c = ' ' || c = '\t' || c = '\n' || c = '\r'

/-- Skip JSON whitespace. -/
def skipWs (s : Str) : Str := s.dropWhile jsonWs

/-- The value of a hexadecimal digit character, if it is one. -/
def hexVal (c : Char) : Option Nat :=
  if 48 <= c.toNat && c.toNat <= 57 then some (c.toNat - 48)
  else if 97 <= c.toNat && c.toNat <= 102 then some (c.toNat - 87)
  else if 65 <= c.toNat && c.toNat <= 70 then some (c.toNat - 55)
  else none

/-- A four-hex-digit escape value. -/
def hex4 (h1 h2 h3 h4 : Char) : Option Nat := do
  let a <- hexVal h1
  let b <- hexVal h2
  let c <- hexVal h3
  let d <- hexVal h4
  pure (((a * 16 + b) * 16 + c) * 16 + d)

/-- Translation of a simple (single-character) JSON escape. -/
def simpleEsc (e : Char) : Option Char :=
  if e = '"' then some '"'
  else if e = '\\' then some '\\'
  else if e = '/' then some '/'
  else if e = 'b' then some '\x08'
  else if e = 'f' then some '\x0c'
  else if e = 'n' then some '\n'
  else if e = 'r' then some '\r'
  else if e = 't' then some '\t'
  else none

mutual

/-- Body of a JSON string literal after the opening quote, in strict mode as
Python's decoder runs it: raw control characters are invalid, escapes are
`\" \\ \/ \b \f \n \r \t \uXXXX`, and a `\uXXXX` high surrogate followed by
a `\uXXXX` low surrogate is combined.  A lone surrogate escape, which
Python keeps as a lone-surrogate code unit, has no `Char` representation
and is outside the model (the function rejects it). -/
def parseStringBody : Str → Option (Str × Str)
  | [] => none
  | c :: rest =>
    if c = '"' then some ([], rest)
    else if c = '\\' then parseEscape rest
    else if c.toNat < 32 then none
    else (parseStringBody rest).map (fun pr => (c :: pr.1, pr.2))

/-- One escape sequence, the leading backslash already consumed. -/
def parseEscape : Str → Option (Str × Str)
  | [] => none
  | e :: r =>
    if e = 'u' then parseUEscape r
    else
      match simpleEsc e with
      | some ch => (parseStringBody r).map (fun pr => (ch :: pr.1, pr.2))
      | none => none

/-- A `\uXXXX` escape, `\u` already consumed. -/
def parseUEscape : Str → Option (Str × Str)
  | h1 :: h2 :: h3 :: h4 :: r1 =>
    match hex4 h1 h2 h3 h4 with
    | none => none
    | some code =>
      if code < 0xD800 then
        (parseStringBody r1).map (fun pr => (Char.ofNat code :: pr.1, pr.2))
      else if code < 0xDC00 then parseLowSurrogate code r1
      else if code < 0xE000 then none
      else (parseStringBody r1).map (fun pr => (Char.ofNat code :: pr.1, pr.2))
  | _ => none

/-- The low half of a surrogate pair following a high `\uXXXX` escape. -/
def parseLowSurrogate (code : Nat) : Str → Option (Str × Str)
  | b1 :: b2 :: l1 :: l2 :: l3 :: l4 :: r2 =>
    if b1 = '\\' && b2 = 'u' then
      match hex4 l1 l2 l3 l4 with
      | some lo =>
        if 0xDC00 <= lo && lo < 0xE000 then
          (parseStringBody r2).map (fun pr =>
            (Char.ofNat (0x10000 + (code - 0xD800) * 0x400 + (lo - 0xDC00)) :: pr.1, pr.2))
        else none
      | none => none
    else none
  | _ => none

end

/-- Maximal leading run of decimal digit characters. -/
def takeDigits : Str → (Str × Str)
  | [] => ([], [])
  | c :: r =>
    if c.isDigit then
      let pr := takeDigits r
      (c :: pr.1, pr.2)
    else ([], c :: r)

/-- Value of a big-endian digit-character string. -/
def digitsToNat (ds : Str) : Nat := Nat.ofDigits 10 ((ds.map digitVal).reverse)

/-- Unsigned part of a JSON number per the grammar `0 | [1-9][0-9]*`:
after a leading `0` no further digits are consumed (Python's `NUMBER_RE`). -/
def parseNumTail : Str → Option (Nat × Str)
  | [] => none
  | c :: r =>
    if c = '0' then some (0, r)
    else if c.isDigit then
      let pr := takeDigits (c :: r)
      some (digitsToNat pr.1, pr.2)
    else none

/-- After an integer literal, a `.`/`e`/`E` would continue a float, which is
outside the model. -/
def numGuard : Str → Bool
  | [] => true
  | c :: _ => !(c = '.' || c = 'e' || c = 'E')

mutual

/-- One JSON value, as Python's `json` decoder scans it (leading whitespace
allowed).  `fuel` bounds recursion depth and is supplied generously by
`json_load`. -/
def jsonValue : Nat → Str → Option (Json × Str)
  | 0, _ => none
  | fuel + 1, s =>
    match skipWs s with
    | [] => none
    | c :: r =>
      if c = 'n' then
        match dropLit ['u', 'l', 'l'] r with
        | some r2 => some (Json.null, r2)
        | none => none
      else if c = 't' then
        match dropLit ['r', 'u', 'e'] r with
        | some r2 => some (Json.bool true, r2)
        | none => none
      else if c = 'f' then
        match dropLit ['a', 'l', 's', 'e'] r with
        | some r2 => some (Json.bool false, r2)
        | none => none
      else if c = '"' then
        (parseStringBody r).map (fun pr => (Json.str pr.1, pr.2))
      else if c = '[' then
        match skipWs r with
        | ']' :: r2 => some (Json.arr [], r2)
        | s2 => (jsonItems fuel s2).map (fun pr => (Json.arr pr.1, pr.2))
      else if c = '\x7b' then
        match skipWs r with
        | '\x7d' :: r2 => some (Json.obj [], r2)
        | s2 => (jsonMembers fuel s2).map (fun pr => (Json.obj pr.1, pr.2))
      else if c = '-' then
        match parseNumTail r with
        | some (n, rest) =>
          if numGuard rest then some (Json.num (-(n : Int)), rest) else none
        | none => none
      else if c.isDigit then
        match parseNumTail (c :: r) with
        | some (n, rest) =>
          if numGuard rest then some (Json.num (n : Int), rest) else none
        | none => none
      else none

/-- Comma-separated JSON array elements up to the closing `]`
(the empty array is handled by `jsonValue`). -/
def jsonItems : Nat → Str → Option (List Json × Str)
  | 0, _ => none
  | fuel + 1, s =>
    match jsonValue fuel s with
    | none => none
    | some (v, r) =>
      match skipWs r with
      | ',' :: r2 => (jsonItems fuel r2).map (fun pr => (v :: pr.1, pr.2))
      | ']' :: r2 => some ([v], r2)
      | _ => none

/-- Comma-separated JSON object members up to the closing brace
(the empty object is handled by `jsonValue`). -/
def jsonMembers : Nat → Str → Option (List (Str × Json) × Str)
  | 0, _ => none
  | fuel + 1, s =>
    match skipWs s with
    | '"' :: r =>
      match parseStringBody r with
      | none => none
      | some (k, r1) =>
        match skipWs r1 with
        | ':' :: r2 =>
          match jsonValue fuel r2 with
          | none => none
          | some (v, r3) =>
            match skipWs r3 with
            | ',' :: r4 => (jsonMembers fuel r4).map (fun pr => ((k, v) :: pr.1, pr.2))
            | '\x7d' :: r4 => some ([(k, v)], r4)
            | _ => none
        | _ => none
    | _ => none

end

/-- Python `json.load`/`json.loads`: parse one JSON document and require
only whitespace after it.  The fuel `s.length + 9` exceeds any recursion
depth reachable on `s`. -/
def json_load (s : Str) : Option Json :=
  match jsonValue (s.length + 9) s with
  | some (v, rest) => if skipWs rest = [] then some v else none
  | none => none

/-! ### src/chunker.py and src/cloud_utils.py : `chunk_batch_into_propositions` -/

/-- Metadata of a partitioned PDF element, as the chunker reads it with
`getattr(source_element.metadata, 'page_number', None)` and
`getattr(source_element.metadata, 'filename', 'unknown')`: an absent
attribute and a `None` attribute are both `none`/use the default. -/
structure ElementMeta where
  page_number : Option Int
  filename : Option Str
deriving DecidableEq, Repr

/-- A partitioned PDF element as the chunker consumes it: `hasattr(el,
'text')` is modelled by the `text` option, `hasattr(el, 'metadata')` by the
`metadata` option. -/
structure Element where
  text : Option Str
  metadata : Option ElementMeta
deriving DecidableEq, Repr

/-- Outcome of `requests.post` + `raise_for_status` + `response.json()`:
a `requests.exceptions.RequestException` (connection failure or HTTP error
status), or a response whose body is (`some body`) or is not (`none`)
valid JSON. -/
inductive HttpResult where
  | requestError : HttpResult
  | success (body : Option Json) : HttpResult
deriving DecidableEq, Repr

/-- Python iteration `for prop_item in propositions` over a decoded JSON
value: a list yields its elements, a string yields its characters as
one-character strings, a dict yields its keys; iterating `None`, a bool or
a number raises `TypeError` (caught by the chunker's generic handler). -/
def jsonIterate : Json → Option (List Json)
  | Json.arr l => some l
  | Json.str s => some (s.map (fun c => Json.str [c]))
  | Json.obj fields => some (fields.map (fun kv => Json.str kv.1))
  | _ => none

/-- src/chunker.py lines 44-53: the robust text extraction for one
proposition item.  A plain string yields itself; a dict yields the value
of the first of the keys `proposition`, `statement`, `text` that holds a
string (even an empty one); everything else yields the initial `""`. -/
def itemText (item : Json) : Str :=
  match item with
  | Json.str s => s
  | Json.obj fields =>
    match List.lookup (['p','r','o','p','o','s','i','t','i','o','n']) fields with
    | some (Json.str s) => s
    | _ =>
      match List.lookup (['s','t','a','t','e','m','e','n','t']) fields with
      | some (Json.str s) => s
      | _ =>
        match List.lookup (['t','e','x','t']) fields with
        | some (Json.str s) => s
        | _ => []
  | _ => []

/-- src/chunker.py lines 58-63: the first element whose raw text contains
the proposition text or is contained in it (bidirectional substring
containment; elements without a `text` attribute never match). -/
def findSource (elements : List Element) (t : Str) : Option Element :=
  elements.find? (fun el =>
    match el.text with
    | some et => isSubstr et t || isSubstr t et
    | none => false)

/-- src/chunker.py lines 65-76: metadata attribution for one surviving
proposition text.  No matching element, or a matching element without a
`metadata` attribute, leaves the defaults `page_number = None`,
`filename = 'unknown'`. -/
def enrichProp (elements : List Element) (t : Str) : Proposition :=
  match findSource elements t with
  | some el =>
    match el.metadata with
    | some m =>
      { text := t
        document_name := m.filename.getD (['u','n','k','n','o','w','n'])
        page_number := m.page_number }
    | none => { text := t, document_name := ['u','n','k','n','o','w','n'], page_number := none }
  | none => { text := t, document_name := ['u','n','k','n','o','w','n'], page_number := none }

/-- src/chunker.py lines 43-78: the enrichment loop over the decoded
proposition items.  Items whose extracted text is empty are skipped
(`if not actual_text_to_check: continue`). -/
def enrichAll (elements : List Element) (items : List Json) : List Proposition :=
  items.filterMap (fun item =>
    let t := itemText item
    if t.isEmpty then none else some (enrichProp elements t))

/-- The default `'{}'` of `response_json.get('response', '{}')`. -/
def emptyObjStr : Str := ['\x7b', '\x7d']

/-- src/chunker.py `chunk_batch_into_propositions` from the point the HTTP
call resolves: `None` on request failure, on a non-JSON response body, on a
body without dict shape, on a non-string `response` field, on a `response`
field that is not valid JSON, or on a non-iterable `propositions` value;
otherwise the enriched propositions.  (The prompt string sent to the model
does not influence the returned value and is not modelled.) -/
def chunker_chunk_batch_into_propositions
    (elements : List Element) (outcome : HttpResult) : Option (List Proposition) :=
  match outcome with
  | HttpResult.requestError => none
  | HttpResult.success none => none
  | HttpResult.success (some body) =>
    match body with
    | Json.obj fields =>
      let raw : Json :=
        match List.lookup (['r','e','s','p','o','n','s','e']) fields with
        | some v => v
        | none => Json.str emptyObjStr
      match raw with
      | Json.str rawText =>
        match json_load rawText with
        | none => none
        | some data =>
          match data with
          | Json.obj dataFields =>
            let propsVal : Json :=
              match List.lookup (['p','r','o','p','o','s','i','t','i','o','n','s']) dataFields with
              | some v => v
              | none => Json.arr []
            match jsonIterate propsVal with
            | none => none
            | some items => some (enrichAll elements items)
          | _ => none
      | _ => none
    | _ => none

/-- src/cloud_utils.py `chunk_batch_into_propositions`: the same pipeline
with extra debug prints (which do not affect the returned value).
Translated independently from src/cloud_utils.py lines 28-99. -/
def cloud_chunk_batch_into_propositions
    (elements : List Element) (outcome : HttpResult) : Option (List Proposition) :=
  match outcome with
  | HttpResult.requestError => none
  | HttpResult.success none => none
  | HttpResult.success (some body) =>
    match body with
    | Json.obj fields =>
      let rawResponseText : Json :=
        match List.lookup (['r','e','s','p','o','n','s','e']) fields with
        | some v => v
        | none => Json.str emptyObjStr
      match rawResponseText with
      | Json.str rawText =>
        match json_load rawText with
        | none => none
        | some responseData =>
          match responseData with
          | Json.obj dataFields =>
            let propositions : Json :=
              match List.lookup (['p','r','o','p','o','s','i','t','i','o','n','s']) dataFields with
              | some v => v
              | none => Json.arr []
            match jsonIterate propositions with
            | none => none
            | some items => some (enrichAll elements items)
          | _ => none
      | _ => none
    | _ => none

/-! ### src/ingest.py : `process_document` -/

/-- src/ingest.py lines 36-50: the element batching loop with
`BATCH_SIZE = 10` — the batch is flushed when it reaches 10 elements or at
the last element, so the batches are consecutive runs of 10 with a shorter
final run; an empty element list yields no batch. -/
def toBatches (els : List Element) : List (List Element) :=
  match els with
  | [] => []
  | e :: rest =>
    if rest.length + 1 <= 10 then [e :: rest]
    else (e :: rest).take 10 :: toBatches ((e :: rest).drop 10)
termination_by els.length
decreasing_by simp [List.drop]; omega

/-- The chunking loop of `process_document`: the k-th LLM call's outcome is
`oracle k`; a `None` from the chunker aborts (`return`) with no file
written, otherwise the propositions accumulate in order. -/
def runBatches (oracle : Nat → HttpResult) : List (List Element) → Nat → Option (List Proposition)
  | [], _ => some []
  | b :: rest, k =>
    match chunker_chunk_batch_into_propositions b (oracle k) with
    | none => none
    | some props =>
      match runBatches oracle rest (k + 1) with
      | none => none
      | some tail => some (props ++ tail)

/-- Modelled from the spec: `get_r2_client` is imported by src/ingest.py
from src/cloud_utils.py but missing from src/ (src/cloud_utils.py holds a
duplicate chunker instead).  Per the spec ("Optional object-storage upload
of processed JSON (credentials via environment variables)"), it returns a
client exactly when the environment-variable credentials are configured,
and no client otherwise. -/
def get_r2_client (credentialsConfigured : Bool) : Bool := credentialsConfigured

/-- Observable outcome of src/ingest.py `process_document` for one
document: the JSON text written to the local file (`none` when chunking
aborted the document), and whether the file was uploaded to object
storage. -/
structure IngestOutcome where
  savedFile : Option Str
  uploaded : Bool
deriving DecidableEq, Repr

/-- src/ingest.py `process_document` after PDF partitioning succeeded with
`els`: chunk batch by batch (aborting on the chunker's `None`), write the
JSON file, and upload it iff an R2 client is configured and at least one
proposition was produced (`if r2_client and all_propositions`). -/
def process_document (r2Client : Bool) (oracle : Nat → HttpResult)
    (els : List Element) : IngestOutcome :=
  match runBatches oracle (toBatches els) 0 with
  | none => { savedFile := none, uploaded := false }
  | some allProps =>
    { savedFile := some (dumpProps allProps)
      uploaded := r2Client && !allProps.isEmpty }

/-! ### src/index.py : `embed_and_index_documents`, one file -/

/-- A JSON object read from a processed file (one proposition dict).
Entries that are not objects would raise `AttributeError` at
`chunk.get("text")` and are outside the claims' scope. -/
abbrev Chunk := List (Str × Json)

/-- src/index.py lines 93-100: sanitization of one metadata value.  A
Python `None` (`Json.null`) becomes `0` for the `page_number` key and `""`
for any other key; every other value is kept unchanged. -/
def sanitizeVal (isPageNumber : Bool) (v : Json) : Json :=
  match v with
  | Json.null => if isPageNumber then Json.num 0 else Json.str []
  | v => v

/-- src/index.py lines 83-101: the sanitized metadata dict of one chunk,
keys in insertion order `document_name`, `page_number`, `text`. -/
def cleanMetaOf (ch : Chunk) : List (Str × Json) :=
  [(['d','o','c','u','m','e','n','t','_','n','a','m','e'],
     sanitizeVal false (dictGet ch (['d','o','c','u','m','e','n','t','_','n','a','m','e']))),
   (['p','a','g','e','_','n','u','m','b','e','r'],
     sanitizeVal true (dictGet ch (['p','a','g','e','_','n','u','m','b','e','r']))),
   (['t','e','x','t'],
     sanitizeVal false (dictGet ch (['t','e','x','t'])))]

/-- The vector-record id `f"{stem}_{offset}"` where `stem` is
`os.path.splitext(file_name)[0]`. -/
def mkId (stem : Str) (offset : Nat) : Str := stem ++ '_' :: natRender offset

/-- One vector record as handed to `chroma_collection.add` (the embedding
itself is produced by the external sentence-embedding model and carries no
information the claims quantify over). -/
structure VecRecord where
  id : Str
  metadata : List (Str × Json)
deriving DecidableEq, Repr

/-- src/index.py lines 79-101: the records of one batch starting at global
offset `start` into the cleaned list: ids `stem_(start+j)` for
`j in range(len(batch))`, metadata sanitized per chunk. -/
def batchRecords (stem : Str) (start : Nat) (batch : List Chunk) : List VecRecord :=
  (batch.zip (List.range' start batch.length)).map
    (fun pr => { id := mkId stem pr.2, metadata := cleanMetaOf pr.1 })

/-- src/index.py lines 75-113, the batch loop over the cleaned chunks of
one file, with `BATCH_SIZE = 50`.  `fails k = true` models the `except`
branch being taken for the k-th batch (embedding or insertion raised).
Returns: the records built for every batch, the records of the batches
whose insertion succeeded, and the per-file contribution to
`total_vectors_added` (incremented by `len(batch)` only on success). -/
def indexBatches (stem : Str) (fails : Nat → Bool) (batchIdx start : Nat) :
    List Chunk → List VecRecord × List VecRecord × Nat
  | [] => ([], [], 0)
  | c :: rest =>
    let b := (c :: rest).take 50
    let next := indexBatches stem fails (batchIdx + 1) (start + b.length) ((c :: rest).drop 50)
    let recs := batchRecords stem start b
    if fails batchIdx then (recs ++ next.1, next.2.1, next.2.2)
    else (recs ++ next.1, recs ++ next.2.1, b.length + next.2.2)
termination_by cs => cs.length
decreasing_by simp [List.drop]; omega

/-- src/index.py lines 58-113 for one successfully read file: junk entries
are filtered out, then the cleaned chunks are embedded and inserted in
batches of 50 (an empty file or a fully junk file is skipped, adding
nothing — the same observable result as the empty batch loop). -/
def indexFile (stem : Str) (fails : Nat → Bool) (chunks : List Chunk) :
    List VecRecord × List VecRecord × Nat :=
  indexBatches stem fails 0 0
    (chunks.filter (fun ch => !is_junk (dictGet ch (['t','e','x','t']))))

/-- The records built for a file (per-batch `ids`/`metadatas_clean`). -/
def createdRecords (stem : Str) (fails : Nat → Bool) (chunks : List Chunk) : List VecRecord :=
  (indexFile stem fails chunks).1

/-- The records of the batches whose `chroma_collection.add` succeeded. -/
def insertedRecords (stem : Str) (fails : Nat → Bool) (chunks : List Chunk) : List VecRecord :=
  (indexFile stem fails chunks).2.1

/-- The file's contribution to `total_vectors_added`. -/
def vectorsAdded (stem : Str) (fails : Nat → Bool) (chunks : List Chunk) : Nat :=
  (indexFile stem fails chunks).2.2

/-- The text that follows the first serialized item in a dumped list:
`,\n`-separated further items, then the closing newline and bracket. -/
def itemsTail (rest : Str) : List Proposition → Str
  | [] => '\n' :: ']' :: rest
  | q :: qs => ',' :: '\n' :: (spaces 4 ++ (serPropLines q ++ itemsTail rest qs))

/-- The 12-proposition example file of the spec: 10 valid entries, one
too-short entry and one bracketed-placeholder entry. -/
def exampleFileChunks : List Chunk :=
  [[(['t','e','x','t'], Json.str ("The plaintiff filed the complaint in March.".data))],
   [(['t','e','x','t'], Json.str ("The contract was signed by both parties.".data))],
   [(['t','e','x','t'], Json.str ("too short".data))],
   [(['t','e','x','t'], Json.str ("The hearing was scheduled for June first.".data))],
   [(['t','e','x','t'], Json.str ("The defendant denied the allegations in full.".data))],
   [(['t','e','x','t'], Json.str ("see [exhibit A] for the full details".data))],
   [(['t','e','x','t'], Json.str ("Damages were assessed at ten thousand dollars.".data))],
   [(['t','e','x','t'], Json.str ("The witness testified under oath on Monday.".data))],
   [(['t','e','x','t'], Json.str ("The motion to dismiss was denied by the court.".data))],
   [(['t','e','x','t'], Json.str ("An appeal was lodged within the statutory window.".data))],
   [(['t','e','x','t'], Json.str ("Settlement talks began in early September.".data))],
   [(['t','e','x','t'], Json.str ("The injunction remains in force until review.".data))]]

/-- A concrete model-server response body for the chunker witnesses: two
usable proposition items (a plain string and a dict) and one unusable
number item. -/
def exampleResponseBody : Json :=
  Json.obj [(['r','e','s','p','o','n','s','e'], Json.str
    ("\x7b\"propositions\": [\"the defendant signed the lease\", \x7b\"proposition\": \"rent was due monthly\"\x7d, 5]\x7d".data))]

/-- The propositions the chunker produces from `exampleResponseBody` with
no elements to match against. -/
def exampleProps : List Proposition :=
  [{ text := "the defendant signed the lease".data,
     document_name := "unknown".data, page_number := none },
   { text := "rent was due monthly".data,
     document_name := "unknown".data, page_number := none }]

/-- A model-server response yielding one proposition that matches no
element. -/
def unmatchedResponseBody : Json :=
  Json.obj [(['r','e','s','p','o','n','s','e'], Json.str
    ("\x7b\"propositions\": [\"an entirely unmatched statement\"]\x7d".data))]

/-- The enriched proposition the chunker builds when no element matches:
metadata stays at the defaults `'unknown'` / `None`. -/
def unmatchedProp : Proposition :=
  { text := "an entirely unmatched statement".data,
    document_name := "unknown".data, page_number := none }

/-! ### Auxiliary lemmas: characters, digits, whitespace -/

theorem charToNat_ofNat (n : Nat) (h : Nat.isValidChar n) : (Char.ofNat n).toNat = n := by
  simp only [Char.ofNat, dif_pos h]
  simp [Char.ofNatAux, Char.toNat, UInt32.toNat, BitVec.toNat_ofNatLt]

theorem charOfNat_toNat (c : Char) : Char.ofNat c.toNat = c := by
  have h : Nat.isValidChar c.toNat := c.valid
  apply Char.eq_of_val_eq
  simp only [Char.ofNat, dif_pos h, Char.ofNatAux]
  apply UInt32.eq_of_toBitVec_eq
  apply BitVec.eq_of_toNat_eq
  simp [Char.toNat, UInt32.toNat, BitVec.toNat_ofNatLt]

theorem hexVal_hexDigit (d : Nat) (hd : d < 16) : hexVal (hexDigit d) = some d := by
  interval_cases d <;> decide

theorem digitVal_digitChar (d : Nat) (hd : d < 10) : digitVal (digitChar d) = d := by
  interval_cases d <;> decide

theorem digitChar_facts (d : Nat) (hd : d < 10) :
    jsonWs (digitChar d) = false ∧ (digitChar d).isDigit = true ∧ digitChar d ≠ 'n' ∧
      digitChar d ≠ 't' ∧ digitChar d ≠ 'f' ∧ digitChar d ≠ '"' ∧ digitChar d ≠ '[' ∧
      digitChar d ≠ '\x7b' ∧ digitChar d ≠ '-' := by
  interval_cases d <;> decide

theorem digitChar_ne_zeroChar (d : Nat) (hd : d < 10) (hne : d ≠ 0) : digitChar d ≠ '0' := by
  interval_cases d <;> simp_all <;> decide

@[simp] theorem escBody_nil : escBody [] = [] := rfl

theorem escBody_cons (c : Char) (s : Str) : escBody (c :: s) = escapeChar c ++ escBody s := by
  simp [escBody]

theorem skipWs_cons_ws {c : Char} (s : Str) (h : jsonWs c = true) :
    skipWs (c :: s) = skipWs s := by
  simp [skipWs, List.dropWhile_cons, h]

theorem skipWs_cons_not {c : Char} (s : Str) (h : jsonWs c = false) :
    skipWs (c :: s) = c :: s := by
  simp [skipWs, List.dropWhile_cons, h]

theorem skipWs_spaces (k : Nat) (s : Str) : skipWs (spaces k ++ s) = skipWs s := by
  induction k with
  | zero => simp [spaces]
  | succ n ih =>
    have : spaces (n + 1) = ' ' :: spaces n := by simp [spaces, List.replicate_succ]
    rw [this, List.cons_append, skipWs_cons_ws _ (by decide), ih]

/-! ### The string-literal round trip -/

theorem hexVal_zeroChar : hexVal '0' = some 0 := by decide

theorem parseStringBody_escBody (s rest : Str) :
    parseStringBody (escBody s ++ '"' :: rest) = some (s, rest) := by
  induction s with
  | nil =>
    simp only [escBody_nil, List.nil_append]
    rw [parseStringBody.eq_def]
    simp
  | cons c cs ih =>
    rw [escBody_cons, List.append_assoc]
    by_cases h1 : c = '"'
    · subst h1
      have he : escapeChar '"' = ['\\', '"'] := by decide
      rw [he]
      simp only [List.cons_append, List.nil_append]
      rw [parseStringBody.eq_def]
      simp [parseEscape.eq_def, parseUEscape.eq_def, simpleEsc, ih]
    by_cases h2 : c = '\\'
    · subst h2
      have he : escapeChar '\\' = ['\\', '\\'] := by decide
      rw [he]
      simp only [List.cons_append, List.nil_append]
      rw [parseStringBody.eq_def]
      simp [parseEscape.eq_def, parseUEscape.eq_def, simpleEsc, ih]
    by_cases h3 : c = '\x08'
    · subst h3
      have he : escapeChar '\x08' = ['\\', 'b'] := by decide
      rw [he]
      simp only [List.cons_append, List.nil_append]
      rw [parseStringBody.eq_def]
      simp [parseEscape.eq_def, parseUEscape.eq_def, simpleEsc, ih]
    by_cases h4 : c = '\x0c'
    · subst h4
      have he : escapeChar '\x0c' = ['\\', 'f'] := by decide
      rw [he]
      simp only [List.cons_append, List.nil_append]
      rw [parseStringBody.eq_def]
      simp [parseEscape.eq_def, parseUEscape.eq_def, simpleEsc, ih]
    by_cases h5 : c = '\n'
    · subst h5
      have he : escapeChar '\n' = ['\\', 'n'] := by decide
      rw [he]
      simp only [List.cons_append, List.nil_append]
      rw [parseStringBody.eq_def]
      simp [parseEscape.eq_def, parseUEscape.eq_def, simpleEsc, ih]
    by_cases h6 : c = '\r'
    · subst h6
      have he : escapeChar '\r' = ['\\', 'r'] := by decide
      rw [he]
      simp only [List.cons_append, List.nil_append]
      rw [parseStringBody.eq_def]
      simp [parseEscape.eq_def, parseUEscape.eq_def, simpleEsc, ih]
    by_cases h7 : c = '\t'
    · subst h7
      have he : escapeChar '\t' = ['\\', 't'] := by decide
      rw [he]
      simp only [List.cons_append, List.nil_append]
      rw [parseStringBody.eq_def]
      simp [parseEscape.eq_def, parseUEscape.eq_def, simpleEsc, ih]
    by_cases h8 : c.toNat < 32
    · have he : escapeChar c =
          ['\\', 'u', '0', '0', hexDigit (c.toNat / 16), hexDigit (c.toNat % 16)] := by
        simp [escapeChar, h1, h2, h3, h4, h5, h6, h7, h8]
      have hdiv : c.toNat / 16 < 16 := by omega
      have hmod : c.toNat % 16 < 16 := by omega
      have hhex : hex4 '0' '0' (hexDigit (c.toNat / 16)) (hexDigit (c.toNat % 16)) =
          some c.toNat := by
        simp [hex4, hexVal_zeroChar, hexVal_hexDigit _ hdiv, hexVal_hexDigit _ hmod]
        omega
      have hlt : c.toNat < 0xD800 := by omega
      rw [he]
      simp only [List.cons_append, List.nil_append]
      rw [parseStringBody.eq_def]
      simp [parseEscape.eq_def, parseUEscape.eq_def, hhex, hlt, ih, charOfNat_toNat]
    · have he : escapeChar c = [c] := by
        simp [escapeChar, h1, h2, h3, h4, h5, h6, h7, h8]
      rw [he]
      simp only [List.cons_append, List.nil_append]
      rw [parseStringBody.eq_def]
      simp [h1, h2, h8, ih]

/-! ### The number round trip -/

theorem natRender_isDigit (n : Nat) : ∀ c ∈ natRender n, c.isDigit = true := by
  intro c hc
  by_cases h : n = 0
  · subst h
    simp only [natRender, if_pos] at hc
    have : c = '0' := List.mem_singleton.mp (by simpa using hc)
    subst this
    decide
  · simp only [natRender, if_neg h, List.mem_reverse, List.mem_map] at hc
    obtain ⟨d, hd, rfl⟩ := hc
    exact (digitChar_facts d (Nat.digits_lt_base (by norm_num) hd)).2.1

theorem natRender_head_cons (n : Nat) :
    ∃ d tail, natRender n = digitChar d :: tail ∧ d < 10 ∧ (n = 0 ∨ d ≠ 0) := by
  by_cases h : n = 0
  · refine ⟨0, [], ?_, by norm_num, Or.inl h⟩
    subst h
    decide
  · have hnil : Nat.digits 10 n ≠ [] := Nat.digits_ne_nil_iff_ne_zero.mpr h
    rcases List.eq_nil_or_concat (Nat.digits 10 n) with hcon | ⟨M, d, hcon⟩
    · exact absurd hcon hnil
    · refine ⟨d, (M.map digitChar).reverse, ?_, ?_, Or.inr ?_⟩
      · simp [natRender, if_neg h, hcon, List.concat_eq_append]
      · exact Nat.digits_lt_base (by norm_num)
          (by rw [hcon]; simp [List.concat_eq_append])
      · have hlast := Nat.getLast_digit_ne_zero 10 h
        have hsome : (Nat.digits 10 n).getLast? = some d := by
          rw [hcon, List.concat_eq_append]; exact List.getLast?_concat _
        rw [List.getLast?_eq_getLast _ (by simpa using hnil)] at hsome
        rw [← Option.some_inj.mp hsome]
        exact hlast

theorem digitsToNat_natRender (n : Nat) : digitsToNat (natRender n) = n := by
  by_cases h : n = 0
  · subst h; decide
  · simp only [natRender, if_neg h, digitsToNat, List.map_reverse, List.reverse_reverse,
      List.map_map]
    have hcg : (Nat.digits 10 n).map (digitVal ∘ digitChar) = (Nat.digits 10 n).map id :=
      List.map_congr_left (fun d hd =>
        digitVal_digitChar d (Nat.digits_lt_base (by norm_num) hd))
    rw [hcg, List.map_id, Nat.ofDigits_digits]

theorem takeDigits_append (ds rest : Str) (h1 : ∀ c ∈ ds, c.isDigit = true)
    (h2 : rest.head?.all (fun c => !c.isDigit) = true) :
    takeDigits (ds ++ rest) = (ds, rest) := by
  induction ds with
  | nil =>
    simp only [List.nil_append]
    cases rest with
    | nil => rfl
    | cons c r =>
      simp only [List.head?_cons, Option.all_some, Bool.not_eq_true'] at h2
      simp [takeDigits, h2]
  | cons d ds ih =>
    have hd : d.isDigit = true := h1 d (List.mem_cons_self d ds)
    simp only [List.cons_append, takeDigits, hd, if_pos, List.append_eq]
    rw [ih (fun c hc => h1 c (List.mem_cons_of_mem d hc))]

theorem parseNumTail_natRender (n : Nat) (rest : Str)
    (h2 : rest.head?.all (fun c => !c.isDigit) = true) :
    parseNumTail (natRender n ++ rest) = some (n, rest) := by
  by_cases h : n = 0
  · subst h
    have h0 : natRender 0 = ['0'] := by decide
    rw [h0]
    simp [parseNumTail]
  · obtain ⟨d, tail, heq, hd10, hne⟩ := natRender_head_cons n
    have hd0 : d ≠ 0 := hne.resolve_left h
    have hc0 : digitChar d ≠ '0' := digitChar_ne_zeroChar d hd10 hd0
    have hcd : (digitChar d).isDigit = true := (digitChar_facts d hd10).2.1
    rw [heq, List.cons_append]
    simp only [parseNumTail, hc0, hcd, if_true, if_false, ite_false, ite_true]
    have hin : digitChar d :: (tail ++ rest) = natRender n ++ rest := by
      rw [← List.cons_append, ← heq]
    rw [hin, takeDigits_append _ _ (natRender_isDigit n) h2]
    simp [digitsToNat_natRender]

/-! ### Scalar values under `jsonValue` -/

theorem jsonValue_str_lead (f : Nat) (t rest : Str) :
    jsonValue (f + 1) (' ' :: (serStr t ++ rest)) = some (Json.str t, rest) := by
  have hws : skipWs (' ' :: (serStr t ++ rest)) = '"' :: (escBody t ++ '"' :: rest) := by
    rw [skipWs_cons_ws _ (by decide)]
    simp only [serStr, List.cons_append, List.append_assoc]
    rw [skipWs_cons_not _ (by decide)]
    simp
  simp only [jsonValue, hws]
  simp [parseStringBody_escBody]

theorem jsonValue_pagefield (f : Nat) (pn : Option Int) (rest : Str) :
    jsonValue (f + 1) (' ' :: (serPage pn ++ '\n' :: rest)) = some (pageJson pn, '\n' :: rest) := by
  cases pn with
  | none =>
    have hws : skipWs (' ' :: (serPage none ++ '\n' :: rest)) =
        'n' :: 'u' :: 'l' :: 'l' :: '\n' :: rest := by
      rw [skipWs_cons_ws _ (by decide)]
      simp only [serPage, List.cons_append, List.nil_append]
      rw [skipWs_cons_not _ (by decide)]
    simp only [jsonValue, hws, pageJson]
    simp [dropLit]
  | some i =>
    cases i with
    | ofNat n =>
      obtain ⟨d, tail, heq, hd10, _⟩ := natRender_head_cons n
      have hf := digitChar_facts d hd10
      have hpn : parseNumTail (digitChar d :: (tail ++ '\n' :: rest)) =
          some (n, '\n' :: rest) := by
        rw [show digitChar d :: (tail ++ '\n' :: rest) = natRender n ++ '\n' :: rest by
          rw [← List.cons_append, ← heq]]
        exact parseNumTail_natRender n _ (by simp)
      have hws : skipWs (' ' :: (serPage (some (Int.ofNat n)) ++ '\n' :: rest)) =
          digitChar d :: (tail ++ '\n' :: rest) := by
        rw [skipWs_cons_ws _ (by decide)]
        simp only [serPage, intRender, heq, List.cons_append]
        rw [skipWs_cons_not _ hf.1]
      simp only [jsonValue, hws]
      simp [hf.2.2.1, hf.2.2.2.1, hf.2.2.2.2.1, hf.2.2.2.2.2.1, hf.2.2.2.2.2.2.1,
        hf.2.2.2.2.2.2.2.1, hf.2.2.2.2.2.2.2.2, hf.2.1, hpn, numGuard, pageJson]
    | negSucc m =>
      have hpn : parseNumTail (natRender (m + 1) ++ '\n' :: rest) =
          some (m + 1, '\n' :: rest) := parseNumTail_natRender (m + 1) _ (by simp)
      have hws : skipWs (' ' :: (serPage (some (Int.negSucc m)) ++ '\n' :: rest)) =
          '-' :: (natRender (m + 1) ++ '\n' :: rest) := by
        rw [skipWs_cons_ws _ (by decide)]
        simp only [serPage, intRender, List.cons_append]
        rw [skipWs_cons_not _ (by decide)]
      simp only [jsonValue, hws]
      simp only [hpn]
      simp [numGuard, pageJson, Int.negSucc_eq]

/-! ### Object members under `jsonMembers` -/

theorem escBody_keyText : escBody (['t','e','x','t']) = ['t','e','x','t'] := by decide

theorem escBody_keyDoc :
    escBody (['d','o','c','u','m','e','n','t','_','n','a','m','e']) =
      ['d','o','c','u','m','e','n','t','_','n','a','m','e'] := by decide

theorem escBody_keyPage :
    escBody (['p','a','g','e','_','n','u','m','b','e','r']) =
      ['p','a','g','e','_','n','u','m','b','e','r'] := by decide

theorem jsonMembers_ws (g : Nat) (s t : Str) (h : skipWs s = skipWs t) :
    jsonMembers g s = jsonMembers g t := by
  cases g with
  | zero => rfl
  | succ g' => simp only [jsonMembers, h]

theorem jsonMembers_cons_field (g : Nat) (k : Str) (hk : escBody k = k) (v : Json)
    (valIn tailIn : Str)
    (hval : jsonValue g (' ' :: valIn) = some (v, ',' :: '\n' :: (spaces 8 ++ '"' :: tailIn))) :
    jsonMembers (g + 1) ('"' :: (k ++ '"' :: ':' :: ' ' :: valIn)) =
      (jsonMembers g ('"' :: tailIn)).map (fun pr => ((k, v) :: pr.1, pr.2)) := by
  have h1 : skipWs ('"' :: (k ++ '"' :: ':' :: ' ' :: valIn)) =
      '"' :: (k ++ '"' :: ':' :: ' ' :: valIn) := skipWs_cons_not _ (by decide)
  have hps : parseStringBody (k ++ '"' :: ':' :: ' ' :: valIn) =
      some (k, ':' :: ' ' :: valIn) := by
    conv_lhs => rw [← hk]
    exact parseStringBody_escBody k _
  have h2 : skipWs (':' :: ' ' :: valIn) = ':' :: ' ' :: valIn := skipWs_cons_not _ (by decide)
  have h3 : skipWs (',' :: '\n' :: (spaces 8 ++ '"' :: tailIn)) =
      ',' :: '\n' :: (spaces 8 ++ '"' :: tailIn) := skipWs_cons_not _ (by decide)
  have h4 : jsonMembers g ('\n' :: (spaces 8 ++ '"' :: tailIn)) = jsonMembers g ('"' :: tailIn) := by
    apply jsonMembers_ws
    rw [skipWs_cons_ws _ (by decide), skipWs_spaces]
  simp only [jsonMembers, h1, hps, h2, hval, h3, h4]

theorem jsonMembers_last_field (g : Nat) (k : Str) (hk : escBody k = k) (v : Json)
    (valIn rest : Str)
    (hval : jsonValue g (' ' :: valIn) = some (v, '\n' :: (spaces 4 ++ '\x7d' :: rest))) :
    jsonMembers (g + 1) ('"' :: (k ++ '"' :: ':' :: ' ' :: valIn)) = some ([(k, v)], rest) := by
  have h1 : skipWs ('"' :: (k ++ '"' :: ':' :: ' ' :: valIn)) =
      '"' :: (k ++ '"' :: ':' :: ' ' :: valIn) := skipWs_cons_not _ (by decide)
  have hps : parseStringBody (k ++ '"' :: ':' :: ' ' :: valIn) =
      some (k, ':' :: ' ' :: valIn) := by
    conv_lhs => rw [← hk]
    exact parseStringBody_escBody k _
  have h2 : skipWs (':' :: ' ' :: valIn) = ':' :: ' ' :: valIn := skipWs_cons_not _ (by decide)
  have h3 : skipWs ('\n' :: (spaces 4 ++ '\x7d' :: rest)) = '\x7d' :: rest := by
    rw [skipWs_cons_ws _ (by decide), skipWs_spaces, skipWs_cons_not _ (by decide)]
  simp only [jsonMembers, h1, hps, h2, hval, h3]


/-! ### The proposition-object round trip -/

theorem jsonValue_propLines (f : Nat) (p : Proposition) (rest : Str) :
    jsonValue (f + 5) (serPropLines p ++ rest) = some (propToJson p, rest) := by
  have hv3 : jsonValue (f + 1) (' ' :: (serPage p.page_number ++ '\n' :: (spaces 4 ++ '\x7d' :: rest))) =
      some (pageJson p.page_number, '\n' :: (spaces 4 ++ '\x7d' :: rest)) :=
    jsonValue_pagefield f p.page_number _
  have hm3 : jsonMembers (f + 2) ('"' :: (['p','a','g','e','_','n','u','m','b','e','r'] ++ '"' :: ':' :: ' ' :: (serPage p.page_number ++ '\n' :: (spaces 4 ++ '\x7d' :: rest)))) =
      some ([(['p','a','g','e','_','n','u','m','b','e','r'], pageJson p.page_number)], rest) :=
    jsonMembers_last_field (f + 1) (['p','a','g','e','_','n','u','m','b','e','r']) escBody_keyPage (pageJson p.page_number)
      (serPage p.page_number ++ '\n' :: (spaces 4 ++ '\x7d' :: rest)) rest hv3
  have hv2 : jsonValue (f + 2) (' ' :: (serStr p.document_name ++ ',' :: '\n' :: (spaces 8 ++ '"' :: (['p','a','g','e','_','n','u','m','b','e','r'] ++ '"' :: ':' :: ' ' :: (serPage p.page_number ++ '\n' :: (spaces 4 ++ '\x7d' :: rest)))))) =
      some (Json.str p.document_name, ',' :: '\n' :: (spaces 8 ++ '"' :: (['p','a','g','e','_','n','u','m','b','e','r'] ++ '"' :: ':' :: ' ' :: (serPage p.page_number ++ '\n' :: (spaces 4 ++ '\x7d' :: rest))))) :=
    jsonValue_str_lead (f + 1) p.document_name _
  have hm2 : jsonMembers (f + 3) ('"' :: (['d','o','c','u','m','e','n','t','_','n','a','m','e'] ++ '"' :: ':' :: ' ' :: (serStr p.document_name ++ ',' :: '\n' :: (spaces 8 ++ '"' :: (['p','a','g','e','_','n','u','m','b','e','r'] ++ '"' :: ':' :: ' ' :: (serPage p.page_number ++ '\n' :: (spaces 4 ++ '\x7d' :: rest))))))) =
      some ([(['d','o','c','u','m','e','n','t','_','n','a','m','e'], Json.str p.document_name), (['p','a','g','e','_','n','u','m','b','e','r'], pageJson p.page_number)], rest) := by
    rw [jsonMembers_cons_field (f + 2) (['d','o','c','u','m','e','n','t','_','n','a','m','e']) escBody_keyDoc (Json.str p.document_name)
      (serStr p.document_name ++ ',' :: '\n' :: (spaces 8 ++ '"' :: (['p','a','g','e','_','n','u','m','b','e','r'] ++ '"' :: ':' :: ' ' :: (serPage p.page_number ++ '\n' :: (spaces 4 ++ '\x7d' :: rest))))) (['p','a','g','e','_','n','u','m','b','e','r'] ++ '"' :: ':' :: ' ' :: (serPage p.page_number ++ '\n' :: (spaces 4 ++ '\x7d' :: rest))) hv2, hm3]
    rfl
  have hv1 : jsonValue (f + 3) (' ' :: (serStr p.text ++ ',' :: '\n' :: (spaces 8 ++ '"' :: (['d','o','c','u','m','e','n','t','_','n','a','m','e'] ++ '"' :: ':' :: ' ' :: (serStr p.document_name ++ ',' :: '\n' :: (spaces 8 ++ '"' :: (['p','a','g','e','_','n','u','m','b','e','r'] ++ '"' :: ':' :: ' ' :: (serPage p.page_number ++ '\n' :: (spaces 4 ++ '\x7d' :: rest))))))))) =
      some (Json.str p.text, ',' :: '\n' :: (spaces 8 ++ '"' :: (['d','o','c','u','m','e','n','t','_','n','a','m','e'] ++ '"' :: ':' :: ' ' :: (serStr p.document_name ++ ',' :: '\n' :: (spaces 8 ++ '"' :: (['p','a','g','e','_','n','u','m','b','e','r'] ++ '"' :: ':' :: ' ' :: (serPage p.page_number ++ '\n' :: (spaces 4 ++ '\x7d' :: rest)))))))) :=
    jsonValue_str_lead (f + 2) p.text _
  have hm1 : jsonMembers (f + 4) ('"' :: (['t','e','x','t'] ++ '"' :: ':' :: ' ' :: (serStr p.text ++ ',' :: '\n' :: (spaces 8 ++ '"' :: (['d','o','c','u','m','e','n','t','_','n','a','m','e'] ++ '"' :: ':' :: ' ' :: (serStr p.document_name ++ ',' :: '\n' :: (spaces 8 ++ '"' :: (['p','a','g','e','_','n','u','m','b','e','r'] ++ '"' :: ':' :: ' ' :: (serPage p.page_number ++ '\n' :: (spaces 4 ++ '\x7d' :: rest)))))))))) =
      some ([(['t','e','x','t'], Json.str p.text), (['d','o','c','u','m','e','n','t','_','n','a','m','e'], Json.str p.document_name), (['p','a','g','e','_','n','u','m','b','e','r'], pageJson p.page_number)], rest) := by
    rw [jsonMembers_cons_field (f + 3) (['t','e','x','t']) escBody_keyText (Json.str p.text)
      (serStr p.text ++ ',' :: '\n' :: (spaces 8 ++ '"' :: (['d','o','c','u','m','e','n','t','_','n','a','m','e'] ++ '"' :: ':' :: ' ' :: (serStr p.document_name ++ ',' :: '\n' :: (spaces 8 ++ '"' :: (['p','a','g','e','_','n','u','m','b','e','r'] ++ '"' :: ':' :: ' ' :: (serPage p.page_number ++ '\n' :: (spaces 4 ++ '\x7d' :: rest)))))))) (['d','o','c','u','m','e','n','t','_','n','a','m','e'] ++ '"' :: ':' :: ' ' :: (serStr p.document_name ++ ',' :: '\n' :: (spaces 8 ++ '"' :: (['p','a','g','e','_','n','u','m','b','e','r'] ++ '"' :: ':' :: ' ' :: (serPage p.page_number ++ '\n' :: (spaces 4 ++ '\x7d' :: rest)))))) hv1, hm2]
    rfl
  have hshape : serPropLines p ++ rest = '\x7b' :: '\n' :: (spaces 8 ++ '"' :: (['t','e','x','t'] ++ '"' :: ':' :: ' ' :: (serStr p.text ++ ',' :: '\n' :: (spaces 8 ++ '"' :: (['d','o','c','u','m','e','n','t','_','n','a','m','e'] ++ '"' :: ':' :: ' ' :: (serStr p.document_name ++ ',' :: '\n' :: (spaces 8 ++ '"' :: (['p','a','g','e','_','n','u','m','b','e','r'] ++ '"' :: ':' :: ' ' :: (serPage p.page_number ++ '\n' :: (spaces 4 ++ '\x7d' :: rest)))))))))) := by
    simp only [serPropLines, serStr, escBody_keyText, escBody_keyDoc, escBody_keyPage,
      List.cons_append, List.append_assoc, List.nil_append, List.singleton_append]
  have hb1 : skipWs ('\x7b' :: '\n' :: (spaces 8 ++ '"' :: (['t','e','x','t'] ++ '"' :: ':' :: ' ' :: (serStr p.text ++ ',' :: '\n' :: (spaces 8 ++ '"' :: (['d','o','c','u','m','e','n','t','_','n','a','m','e'] ++ '"' :: ':' :: ' ' :: (serStr p.document_name ++ ',' :: '\n' :: (spaces 8 ++ '"' :: (['p','a','g','e','_','n','u','m','b','e','r'] ++ '"' :: ':' :: ' ' :: (serPage p.page_number ++ '\n' :: (spaces 4 ++ '\x7d' :: rest))))))))))) = '\x7b' :: '\n' :: (spaces 8 ++ '"' :: (['t','e','x','t'] ++ '"' :: ':' :: ' ' :: (serStr p.text ++ ',' :: '\n' :: (spaces 8 ++ '"' :: (['d','o','c','u','m','e','n','t','_','n','a','m','e'] ++ '"' :: ':' :: ' ' :: (serStr p.document_name ++ ',' :: '\n' :: (spaces 8 ++ '"' :: (['p','a','g','e','_','n','u','m','b','e','r'] ++ '"' :: ':' :: ' ' :: (serPage p.page_number ++ '\n' :: (spaces 4 ++ '\x7d' :: rest)))))))))) := skipWs_cons_not _ (by decide)
  have hb2 : skipWs ('\n' :: (spaces 8 ++ '"' :: (['t','e','x','t'] ++ '"' :: ':' :: ' ' :: (serStr p.text ++ ',' :: '\n' :: (spaces 8 ++ '"' :: (['d','o','c','u','m','e','n','t','_','n','a','m','e'] ++ '"' :: ':' :: ' ' :: (serStr p.document_name ++ ',' :: '\n' :: (spaces 8 ++ '"' :: (['p','a','g','e','_','n','u','m','b','e','r'] ++ '"' :: ':' :: ' ' :: (serPage p.page_number ++ '\n' :: (spaces 4 ++ '\x7d' :: rest))))))))))) = '"' :: (['t','e','x','t'] ++ '"' :: ':' :: ' ' :: (serStr p.text ++ ',' :: '\n' :: (spaces 8 ++ '"' :: (['d','o','c','u','m','e','n','t','_','n','a','m','e'] ++ '"' :: ':' :: ' ' :: (serStr p.document_name ++ ',' :: '\n' :: (spaces 8 ++ '"' :: (['p','a','g','e','_','n','u','m','b','e','r'] ++ '"' :: ':' :: ' ' :: (serPage p.page_number ++ '\n' :: (spaces 4 ++ '\x7d' :: rest))))))))) := by
    rw [skipWs_cons_ws _ (by decide), skipWs_spaces, skipWs_cons_not _ (by decide)]
  rw [hshape]
  simp +decide only [jsonValue, hb1, hb2, if_false, if_true, ite_false, ite_true]
  change Option.map (fun pr => (Json.obj pr.1, pr.2)) (jsonMembers (f + 4) ('"' :: (['t','e','x','t'] ++ '"' :: ':' :: ' ' :: (serStr p.text ++ ',' :: '\n' :: (spaces 8 ++ '"' :: (['d','o','c','u','m','e','n','t','_','n','a','m','e'] ++ '"' :: ':' :: ' ' :: (serStr p.document_name ++ ',' :: '\n' :: (spaces 8 ++ '"' :: (['p','a','g','e','_','n','u','m','b','e','r'] ++ '"' :: ':' :: ' ' :: (serPage p.page_number ++ '\n' :: (spaces 4 ++ '\x7d' :: rest))))))))))) =
    some (propToJson p, rest)
  rw [hm1]
  rfl

/-! ### The whole-file round trip -/

theorem jsonValue_ws (g : Nat) (s t : Str) (h : skipWs s = skipWs t) :
    jsonValue g s = jsonValue g t := by
  cases g with
  | zero => rfl
  | succ g' => simp only [jsonValue, h]

theorem jsonItems_ws (g : Nat) (s t : Str) (h : skipWs s = skipWs t) :
    jsonItems g s = jsonItems g t := by
  cases g with
  | zero => rfl
  | succ g' => simp only [jsonItems, jsonValue_ws g' s t h]

theorem dumpProps_cons_itemsTail (p : Proposition) (ps : List Proposition) :
    dumpProps (p :: ps) = '[' :: '\n' :: (spaces 4 ++ (serPropLines p ++ itemsTail [] ps)) := by
  suffices h : ∀ qs : List Proposition,
      (qs.map (fun q => ',' :: '\n' :: spaces 4 ++ serPropLines q)).flatten ++ '\n' :: [']'] =
        itemsTail [] qs by
    simp only [dumpProps, List.cons_append, List.append_assoc, ← h]
  intro qs
  induction qs with
  | nil => simp [itemsTail]
  | cons q qs ih =>
    simp only [List.map_cons, List.flatten_cons, itemsTail, ← ih, List.cons_append,
      List.append_assoc]

theorem jsonItems_step (g : Nat) (s r r2 rest : Str) (v : Json) (vs : List Json)
    (hv : jsonValue g s = some (v, r)) (hw : skipWs r = ',' :: r2)
    (hcont : jsonItems g r2 = some (vs, rest)) :
    jsonItems (g + 1) s = some (v :: vs, rest) := by
  simp only [jsonItems, hv, hw, hcont, Option.map_some']

theorem jsonItems_last (g : Nat) (s r r2 : Str) (v : Json)
    (hv : jsonValue g s = some (v, r)) (hw : skipWs r = ']' :: r2) :
    jsonItems (g + 1) s = some ([v], r2) := by
  simp only [jsonItems, hv, hw]

theorem jsonItems_props (ps : List Proposition) : ∀ (p : Proposition) (f : Nat) (rest : Str),
    jsonItems (ps.length + f + 6) (serPropLines p ++ itemsTail rest ps) =
      some ((p :: ps).map propToJson, rest) := by
  induction ps with
  | nil =>
    intro p f rest
    simp only [itemsTail, List.length_nil, Nat.zero_add, List.map_cons, List.map_nil]
    exact jsonItems_last (f + 5) _ _ _ _ (jsonValue_propLines f p ('\n' :: ']' :: rest))
      (by rw [skipWs_cons_ws _ (by decide), skipWs_cons_not _ (by decide)])
  | cons q qs ih =>
    intro p f rest
    simp only [itemsTail, List.length_cons, List.map_cons]
    have hcont : jsonItems (qs.length + 1 + f + 5)
        ('\n' :: (spaces 4 ++ (serPropLines q ++ itemsTail rest qs))) =
        some (propToJson q :: qs.map propToJson, rest) := by
      rw [jsonItems_ws (qs.length + 1 + f + 5) _ (serPropLines q ++ itemsTail rest qs) (by
        rw [skipWs_cons_ws _ (by decide), skipWs_spaces])]
      rw [show qs.length + 1 + f + 5 = qs.length + f + 6 by omega]
      have := ih q f rest
      simpa using this
    exact jsonItems_step (qs.length + 1 + f + 5) _ _ _ _ _ _
      (jsonValue_propLines (qs.length + 1 + f) p _)
      (skipWs_cons_not _ (by decide)) hcont

theorem itemsTail_length_ge (rest : Str) (qs : List Proposition) :
    qs.length ≤ (itemsTail rest qs).length := by
  induction qs with
  | nil => simp [itemsTail]
  | cons q qs ih =>
    simp only [itemsTail, List.length_cons, List.length_append]
    omega

theorem json_load_dumpProps (ps : List Proposition) :
    json_load (dumpProps ps) = some (Json.arr (ps.map propToJson)) := by
  cases ps with
  | nil => rfl
  | cons p qs =>
    rw [dumpProps_cons_itemsTail]
    have h1 : qs.length ≤ (itemsTail [] qs).length := itemsTail_length_ge [] qs
    have hitems := jsonItems_props qs p
      (('[' :: '\n' :: (spaces 4 ++ (serPropLines p ++ itemsTail [] qs))).length + 2 - qs.length) []
    rw [show qs.length + (('[' :: '\n' :: (spaces 4 ++ (serPropLines p ++ itemsTail [] qs))).length + 2 - qs.length) + 6 =
        ('[' :: '\n' :: (spaces 4 ++ (serPropLines p ++ itemsTail [] qs))).length + 8 from by
      simp only [List.length_cons, List.length_append]
      omega] at hitems
    have hws1 : skipWs ('[' :: '\n' :: (spaces 4 ++ (serPropLines p ++ itemsTail [] qs))) = '[' :: '\n' :: (spaces 4 ++ (serPropLines p ++ itemsTail [] qs)) := skipWs_cons_not _ (by decide)
    have hws2 : skipWs ('\n' :: (spaces 4 ++ (serPropLines p ++ itemsTail [] qs))) = serPropLines p ++ itemsTail [] qs := by
      rw [skipWs_cons_ws _ (by decide), skipWs_spaces]
      show skipWs (serPropLines p ++ itemsTail [] qs) = serPropLines p ++ itemsTail [] qs
      simp only [serPropLines, List.cons_append]
      exact skipWs_cons_not _ (by decide)
    have hv : jsonValue (('[' :: '\n' :: (spaces 4 ++ (serPropLines p ++ itemsTail [] qs))).length + 9) ('[' :: '\n' :: (spaces 4 ++ (serPropLines p ++ itemsTail [] qs))) =
        some (Json.arr ((p :: qs).map propToJson), []) := by
      simp +decide only [jsonValue, hws1, hws2, if_false, if_true, ite_false, ite_true]
      change Option.map (fun pr => (Json.arr pr.1, pr.2))
        (jsonItems (('[' :: '\n' :: (spaces 4 ++ (serPropLines p ++ itemsTail [] qs))).length + 8) (serPropLines p ++ itemsTail [] qs)) =
        some (Json.arr ((p :: qs).map propToJson), [])
      rw [hitems]
      rfl
    simp only [json_load, hv]
    rfl

/-! ### Structure of the index batch loop -/

theorem batchRecords_length (stem : Str) (st : Nat) (b : List Chunk) :
    (batchRecords stem st b).length = b.length := by
  simp [batchRecords, List.length_zip, List.length_range']

theorem indexBatches_fst (stem : Str) (fails : Nat → Bool) :
    ∀ (n : Nat) (cs : List Chunk), cs.length ≤ n → ∀ (bi st : Nat),
      (indexBatches stem fails bi st cs).1 =
        (cs.zip (List.range' st cs.length)).map
          (fun pr => { id := mkId stem pr.2, metadata := cleanMetaOf pr.1 }) := by
  intro n
  induction n with
  | zero =>
    intro cs hle bi st
    rw [List.eq_nil_of_length_eq_zero (Nat.le_zero.mp hle)]
    simp [indexBatches]
  | succ n ih =>
    intro cs hle bi st
    cases cs with
    | nil => simp [indexBatches]
    | cons c rest =>
      have hnext := ih ((c :: rest).drop 50)
        (by simp only [List.length_drop, List.length_cons] at hle ⊢; omega)
        (bi + 1) (st + ((c :: rest).take 50).length)
      have hsplit : ((c :: rest).zip (List.range' st (c :: rest).length)).map
            (fun pr => ({ id := mkId stem pr.2, metadata := cleanMetaOf pr.1 } : VecRecord)) =
          batchRecords stem st ((c :: rest).take 50) ++
            (((c :: rest).drop 50).zip
              (List.range' (st + ((c :: rest).take 50).length) ((c :: rest).drop 50).length)).map
              (fun pr => { id := mkId stem pr.2, metadata := cleanMetaOf pr.1 }) := by
        conv_lhs => rw [← List.take_append_drop 50 (c :: rest)]
        rw [show List.range' st (List.take 50 (c :: rest) ++ List.drop 50 (c :: rest)).length =
            List.range' st ((c :: rest).take 50).length ++
              List.range' (st + ((c :: rest).take 50).length) ((c :: rest).drop 50).length from by
          rw [show st + ((c :: rest).take 50).length = st + 1 * ((c :: rest).take 50).length by
            omega]
          rw [List.range'_append]
          congr 1
          simp only [List.length_append]
          omega]
        rw [List.zip_append (by rw [List.length_range'])]
        rw [List.map_append]
        rfl
      rw [indexBatches]
      by_cases hf : fails bi
      · simp only [hf, if_true, eq_self_iff_true, hnext, hsplit]
      · simp only [hf, Bool.false_eq_true, if_false, hnext, hsplit]

theorem indexBatches_total_eq (stem : Str) (fails : Nat → Bool) :
    ∀ (n : Nat) (cs : List Chunk), cs.length ≤ n → ∀ (bi st : Nat),
      (indexBatches stem fails bi st cs).2.2 = (indexBatches stem fails bi st cs).2.1.length := by
  intro n
  induction n with
  | zero =>
    intro cs hle bi st
    rw [List.eq_nil_of_length_eq_zero (Nat.le_zero.mp hle)]
    simp [indexBatches]
  | succ n ih =>
    intro cs hle bi st
    cases cs with
    | nil => simp [indexBatches]
    | cons c rest =>
      have hnext := ih ((c :: rest).drop 50)
        (by simp only [List.length_drop, List.length_cons] at hle ⊢; omega)
        (bi + 1) (st + ((c :: rest).take 50).length)
      rw [indexBatches]
      by_cases hf : fails bi
      · simp only [hf, if_true, eq_self_iff_true, hnext]
      · simp only [hf, Bool.false_eq_true, if_false, hnext, List.length_append,
          batchRecords_length]

theorem indexBatches_inserted_sublist (stem : Str) (fails : Nat → Bool) :
    ∀ (n : Nat) (cs : List Chunk), cs.length ≤ n → ∀ (bi st : Nat) (r : VecRecord),
      r ∈ (indexBatches stem fails bi st cs).2.1 → r ∈ (indexBatches stem fails bi st cs).1 := by
  intro n
  induction n with
  | zero =>
    intro cs hle bi st r hr
    rw [List.eq_nil_of_length_eq_zero (Nat.le_zero.mp hle)] at hr
    simp [indexBatches] at hr
  | succ n ih =>
    intro cs hle bi st r hr
    cases cs with
    | nil => simp [indexBatches] at hr
    | cons c rest =>
      have hstep := ih ((c :: rest).drop 50)
        (by simp only [List.length_drop, List.length_cons] at hle ⊢; omega)
        (bi + 1) (st + ((c :: rest).take 50).length) r
      rw [indexBatches] at hr ⊢
      by_cases hf : fails bi
      · simp only [hf, if_true, eq_self_iff_true] at hr ⊢
        exact List.mem_append_right _ (hstep hr)
      · simp only [hf, Bool.false_eq_true, if_false, List.mem_append] at hr ⊢
        rcases hr with hr | hr
        · exact Or.inl hr
        · exact Or.inr (hstep hr)

theorem indexBatches_nofail (stem : Str) (fails : Nat → Bool) (hnf : ∀ k, fails k = false) :
    ∀ (n : Nat) (cs : List Chunk), cs.length ≤ n → ∀ (bi st : Nat),
      (indexBatches stem fails bi st cs).2.1 = (indexBatches stem fails bi st cs).1 := by
  intro n
  induction n with
  | zero =>
    intro cs hle bi st
    rw [List.eq_nil_of_length_eq_zero (Nat.le_zero.mp hle)]
    simp [indexBatches]
  | succ n ih =>
    intro cs hle bi st
    cases cs with
    | nil => simp [indexBatches]
    | cons c rest =>
      have hnext := ih ((c :: rest).drop 50)
        (by simp only [List.length_drop, List.length_cons] at hle ⊢; omega)
        (bi + 1) (st + ((c :: rest).take 50).length)
      rw [indexBatches]
      simp only [hnf bi, Bool.false_eq_true, if_false, hnext]

theorem natRender_inj : Function.Injective natRender := by
  intro a b h
  have ha := parseNumTail_natRender a [] (by simp)
  have hb := parseNumTail_natRender b [] (by simp)
  rw [h] at ha
  rw [ha] at hb
  simpa using hb

theorem mkId_inj (stem : Str) : Function.Injective (mkId stem) := by
  intro a b h
  simp only [mkId] at h
  have h2 := List.append_cancel_left h
  injection h2 with _ h3
  exact natRender_inj h3

theorem createdRecords_eq (stem : Str) (fails : Nat → Bool) (chunks : List Chunk) :
    createdRecords stem fails chunks =
      ((chunks.filter (fun ch => !is_junk (dictGet ch (['t','e','x','t'])))).zip
        (List.range' 0
          (chunks.filter (fun ch => !is_junk (dictGet ch (['t','e','x','t'])))).length)).map
        (fun pr => { id := mkId stem pr.2, metadata := cleanMetaOf pr.1 }) :=
  indexBatches_fst stem fails _ _ (Nat.le_refl _) 0 0

theorem createdRecords_ids (stem : Str) (fails : Nat → Bool) (chunks : List Chunk) :
    (createdRecords stem fails chunks).map (fun r => r.id) =
      (List.range
        (chunks.filter (fun ch => !is_junk (dictGet ch (['t','e','x','t'])))).length).map
        (mkId stem) := by
  rw [createdRecords_eq, List.map_map, List.range_eq_range']
  have hmap : ((fun r : VecRecord => r.id) ∘
      (fun pr : Chunk × Nat => ({ id := mkId stem pr.2, metadata := cleanMetaOf pr.1 } : VecRecord)))
      = (mkId stem) ∘ Prod.snd := rfl
  rw [hmap, ← List.map_map, List.map_snd_zip _ _ (by rw [List.length_range'])]

theorem createdRecords_metadata (stem : Str) (fails : Nat → Bool) (chunks : List Chunk) :
    (createdRecords stem fails chunks).map (fun r => r.metadata) =
      (chunks.filter (fun ch => !is_junk (dictGet ch (['t','e','x','t'])))).map cleanMetaOf := by
  rw [createdRecords_eq, List.map_map]
  have hmap : ((fun r : VecRecord => r.metadata) ∘
      (fun pr : Chunk × Nat => ({ id := mkId stem pr.2, metadata := cleanMetaOf pr.1 } : VecRecord)))
      = cleanMetaOf ∘ Prod.fst := rfl
  rw [hmap, ← List.map_map, List.map_fst_zip _ _ (by rw [List.length_range'])]

theorem createdRecords_length (stem : Str) (fails : Nat → Bool) (chunks : List Chunk) :
    (createdRecords stem fails chunks).length =
      (chunks.filter (fun ch => !is_junk (dictGet ch (['t','e','x','t'])))).length := by
  have := congrArg List.length (createdRecords_metadata stem fails chunks)
  simpa using this

theorem createdRecords_ids_nodup (stem : Str) (fails : Nat → Bool) (chunks : List Chunk) :
    ((createdRecords stem fails chunks).map (fun r => r.id)).Nodup := by
  rw [createdRecords_ids]
  exact ((List.nodup_range _).map (mkId_inj stem))

/-! ### Claim theorems -/

theorem pyStrip_length_le (s : Str) : (pyStrip s).length ≤ s.length := by
  simp only [pyStrip, List.length_reverse]
  calc ((s.dropWhile pyWs).reverse.dropWhile pyWs).length
      ≤ (s.dropWhile pyWs).reverse.length := (List.dropWhile_suffix _).length_le
    _ = (s.dropWhile pyWs).length := List.length_reverse _
    _ ≤ s.length := (List.dropWhile_suffix _).length_le

theorem sanitizeVal_ne_null (b : Bool) (v : Json) : sanitizeVal b v ≠ Json.null := by
  cases v <;> simp [sanitizeVal] <;> cases b <;> simp

/-- C1: every string under 10 characters, containing a `[...]`/`{...}`
placeholder pattern, or matching `^\(Page: .*\)$` after stripping, is
classified junk by `is_junk`; and the records the indexer builds for a file
are exactly those of the entries on which the filter returns false, in
order. -/
theorem C1_junk_filter (s : Str) (stem : Str) (fails : Nat → Bool) (chunks : List Chunk) :
    (s.length < 10 → is_junk (Json.str s) = true) ∧
    ((hasBracketPair '[' ']' s || hasBracketPair '\x7b' '\x7d' s) = true →
      is_junk (Json.str s) = true) ∧
    (pageArtifact (pyStrip s) = true → is_junk (Json.str s) = true) ∧
    ((createdRecords stem fails chunks).map (fun r => r.metadata) =
      (chunks.filter (fun ch => !is_junk (dictGet ch (['t','e','x','t'])))).map cleanMetaOf) := by
  refine ⟨?_, ?_, ?_, createdRecords_metadata stem fails chunks⟩
  · intro h
    simp only [is_junk]
    split_ifs with h1 h2 h3 h4 <;> try rfl
    exact absurd (Nat.lt_of_le_of_lt (pyStrip_length_le s) h) h2
  · intro h
    simp only [is_junk]
    split_ifs with h1 h2 <;> rfl
  · intro h
    simp only [is_junk]
    split_ifs with h1 h2 h3 <;> rfl

/-- Witness for C1 at concrete junk inputs: a short string, a bracketed
placeholder, and a stripped page artifact are all filtered. -/
theorem C1_junk_filter_witness :
    is_junk (Json.str ("short".data)) = true ∧
    is_junk (Json.str ("this contains [placeholder] text".data)) = true ∧
    is_junk (Json.str ("   (Page: 12)  ".data)) = true :=
  ⟨(C1_junk_filter ("short".data) [] (fun _ => false) []).1 (by decide),
   (C1_junk_filter ("this contains [placeholder] text".data) [] (fun _ => false) []).2.1
     (by decide),
   (C1_junk_filter ("   (Page: 12)  ".data) [] (fun _ => false) []).2.2.1 (by decide)⟩

/-- C2: metadata sanitization turns a `None` `page_number` into `0`, a
`None` `document_name`/`text` into the empty string, keeps every non-`None`
value unchanged, and no record built by the indexer carries a null
metadata value. -/
theorem C2_metadata_sanitization (ch : Chunk) (b : Bool) (v : Json) (stem : Str)
    (fails : Nat → Bool) (chunks : List Chunk) :
    (dictGet ch (['p','a','g','e','_','n','u','m','b','e','r']) = Json.null →
      List.lookup (['p','a','g','e','_','n','u','m','b','e','r']) (cleanMetaOf ch) =
        some (Json.num 0)) ∧
    (dictGet ch (['d','o','c','u','m','e','n','t','_','n','a','m','e']) = Json.null →
      List.lookup (['d','o','c','u','m','e','n','t','_','n','a','m','e']) (cleanMetaOf ch) =
        some (Json.str [])) ∧
    (dictGet ch (['t','e','x','t']) = Json.null →
      List.lookup (['t','e','x','t']) (cleanMetaOf ch) = some (Json.str [])) ∧
    (v ≠ Json.null → sanitizeVal b v = v) ∧
    (∀ r ∈ createdRecords stem fails chunks, ∀ kv ∈ r.metadata, kv.2 ≠ Json.null) := by
  have e1 : ((['p','a','g','e','_','n','u','m','b','e','r'] : Str) ==
      ['d','o','c','u','m','e','n','t','_','n','a','m','e']) = false := by decide
  have e2 : ((['p','a','g','e','_','n','u','m','b','e','r'] : Str) ==
      ['p','a','g','e','_','n','u','m','b','e','r']) = true := by decide
  have e3 : ((['d','o','c','u','m','e','n','t','_','n','a','m','e'] : Str) ==
      ['d','o','c','u','m','e','n','t','_','n','a','m','e']) = true := by decide
  have e4 : ((['t','e','x','t'] : Str) ==
      ['d','o','c','u','m','e','n','t','_','n','a','m','e']) = false := by decide
  have e5 : ((['t','e','x','t'] : Str) ==
      ['p','a','g','e','_','n','u','m','b','e','r']) = false := by decide
  have e6 : ((['t','e','x','t'] : Str) == ['t','e','x','t']) = true := by decide
  refine ⟨?_, ?_, ?_, ?_, ?_⟩
  · intro h
    simp only [cleanMetaOf, List.lookup, e1, e2, h]
    rfl
  · intro h
    simp only [cleanMetaOf, List.lookup, e3, h]
    rfl
  · intro h
    simp only [cleanMetaOf, List.lookup, e4, e5, e6, h]
    rfl
  · intro h
    cases v <;> first | rfl | exact absurd rfl h
  · intro r hr kv hkv
    have hmeta := createdRecords_eq stem fails chunks
    rw [hmeta] at hr
    simp only [List.mem_map] at hr
    obtain ⟨pr, _, rfl⟩ := hr
    simp only [cleanMetaOf, List.mem_cons, List.mem_singleton] at hkv
    rcases hkv with rfl | rfl | rfl | h
    · exact sanitizeVal_ne_null _ _
    · exact sanitizeVal_ne_null _ _
    · exact sanitizeVal_ne_null _ _
    · exact absurd h (List.not_mem_nil kv)

/-- Witness for C2 at a concrete chunk with a null `page_number`, a null
(missing) `document_name`, and a non-null value left unchanged. -/
theorem C2_metadata_sanitization_witness :
    List.lookup (['p','a','g','e','_','n','u','m','b','e','r'])
      (cleanMetaOf [(['t','e','x','t'], Json.str ("a valid statement here".data)),
                    (['p','a','g','e','_','n','u','m','b','e','r'], Json.null)]) =
      some (Json.num 0) ∧
    sanitizeVal false (Json.str ['x']) = Json.str ['x'] ∧
    (Json.num 0 : Json) ≠ Json.null := by
  refine ⟨?_, ?_, ?_⟩
  · exact (C2_metadata_sanitization
      [(['t','e','x','t'], Json.str ("a valid statement here".data)),
       (['p','a','g','e','_','n','u','m','b','e','r'], Json.null)]
      false (Json.str ['x']) ['d'] (fun _ => false) []).1 (by decide)
  · exact (C2_metadata_sanitization
      [(['t','e','x','t'], Json.str ("a valid statement here".data)),
       (['p','a','g','e','_','n','u','m','b','e','r'], Json.null)]
      false (Json.str ['x']) ['d'] (fun _ => false) []).2.2.2.1 (by decide)
  · have h := (C2_metadata_sanitization
      [(['t','e','x','t'], Json.str ("a valid statement here".data)),
       (['p','a','g','e','_','n','u','m','b','e','r'], Json.null)]
      false (Json.str ['x']) ['d'] (fun _ => false)
      [[(['t','e','x','t'], Json.str ("a valid statement here".data)),
        (['p','a','g','e','_','n','u','m','b','e','r'], Json.null)]]).2.2.2.2
      { id := ['d', '_', '0'],
        metadata := [(['d','o','c','u','m','e','n','t','_','n','a','m','e'], Json.str []),
                     (['p','a','g','e','_','n','u','m','b','e','r'], Json.num 0),
                     (['t','e','x','t'], Json.str ("a valid statement here".data))] }
      (by rw [createdRecords_eq]; decide)
      (['p','a','g','e','_','n','u','m','b','e','r'], Json.num 0) (by decide)
    exact h

/-- C7: one vector record per surviving entry, id `"{stem}_{offset}"` with
the zero-based offset into the filtered list, and the ids of one file are
pairwise distinct. -/
theorem C7_vector_ids (stem : Str) (fails : Nat → Bool) (chunks : List Chunk) :
    (createdRecords stem fails chunks).length =
      (chunks.filter (fun ch => !is_junk (dictGet ch (['t','e','x','t'])))).length ∧
    (createdRecords stem fails chunks).map (fun r => r.id) =
      (List.range
        (chunks.filter (fun ch => !is_junk (dictGet ch (['t','e','x','t'])))).length).map
        (mkId stem) ∧
    (∀ off : Nat, mkId stem off = stem ++ '_' :: natRender off) ∧
    ((createdRecords stem fails chunks).map (fun r => r.id)).Nodup :=
  ⟨createdRecords_length stem fails chunks, createdRecords_ids stem fails chunks,
   fun _ => rfl, createdRecords_ids_nodup stem fails chunks⟩

/-- C8: the indexer inserts in batches of 50; a failing batch is skipped
while the rest continue; only successful batches count toward the total,
which under full success equals the number of non-junk entries. -/
theorem C8_batch_insertion (stem : Str) (fails : Nat → Bool) (chunks : List Chunk) :
    ((∀ k, fails k = false) → vectorsAdded stem fails chunks =
      (chunks.filter (fun ch => !is_junk (dictGet ch (['t','e','x','t'])))).length) ∧
    (vectorsAdded stem fails chunks = (insertedRecords stem fails chunks).length) ∧
    (∀ r ∈ insertedRecords stem fails chunks, r ∈ createdRecords stem fails chunks) := by
  refine ⟨?_, ?_, ?_⟩
  · intro hnf
    have h1 : vectorsAdded stem fails chunks = (insertedRecords stem fails chunks).length :=
      indexBatches_total_eq stem fails _ _ (Nat.le_refl _) 0 0
    have h2 : insertedRecords stem fails chunks = createdRecords stem fails chunks :=
      indexBatches_nofail stem fails hnf _ _ (Nat.le_refl _) 0 0
    rw [h1, h2, createdRecords_length]
  · exact indexBatches_total_eq stem fails _ _ (Nat.le_refl _) 0 0
  · exact fun r hr => indexBatches_inserted_sublist stem fails _ _ (Nat.le_refl _) 0 0 r hr

/-- Witness for C8: the spec's example file with 12 propositions of which
2 are junk adds exactly 10 vectors when every batch succeeds. -/
theorem C8_batch_insertion_witness :
    vectorsAdded ("notes".data) (fun _ => false) exampleFileChunks = 10 := by
  have h := (C8_batch_insertion ("notes".data) (fun _ => false) exampleFileChunks).1
    (fun _ => rfl)
  rw [h]
  decide

theorem enrichAll_eq (els : List Element) (items : List Json) :
    enrichAll els items =
      ((items.map itemText).filter (fun t => !t.isEmpty)).map (enrichProp els) := by
  induction items with
  | nil => rfl
  | cons a items ih =>
    simp only [enrichAll, List.filterMap_cons, List.map_cons, List.filter_cons]
    by_cases h : (itemText a).isEmpty
    · simp only [h, Bool.not_true, if_true, ite_false, Bool.false_eq_true]
      exact ih
    · simp only [eq_false_of_ne_true h, Bool.not_false, if_false, ite_true, List.map_cons,
        Bool.false_eq_true]
      rw [← ih]
      rfl

theorem enrichAll_text_ne_nil (els : List Element) (items : List Json) (p : Proposition)
    (hp : p ∈ enrichAll els items) : p.text ≠ [] := by
  simp only [enrichAll, List.mem_filterMap] at hp
  obtain ⟨item, _, heq⟩ := hp
  by_cases h : (itemText item).isEmpty
  · simp [h] at heq
  · simp only [h, Bool.false_eq_true, if_false, Option.some_inj] at heq
    subst heq
    simp only [enrichProp]
    intro hnil
    apply h
    cases hfs : findSource els (itemText item) with
    | none =>
      rw [hfs] at hnil
      simp only at hnil
      rw [hnil]
      rfl
    | some el =>
      rw [hfs] at hnil
      simp only at hnil
      cases hm : el.metadata with
      | none => rw [hm] at hnil; simp only at hnil; rw [hnil]; rfl
      | some m => rw [hm] at hnil; simp only at hnil; rw [hnil]; rfl

theorem chunker_some_inv (els : List Element) (outcome : HttpResult)
    (props : List Proposition)
    (h : chunker_chunk_batch_into_propositions els outcome = some props) :
    ∃ items : List Json, props = enrichAll els items := by
  cases outcome with
  | requestError => simp [chunker_chunk_batch_into_propositions] at h
  | success ob =>
    cases ob with
    | none => simp [chunker_chunk_batch_into_propositions] at h
    | some body =>
      cases body <;> simp only [chunker_chunk_batch_into_propositions] at h <;>
        try exact absurd h (by simp)
      rename_i fields
      cases hraw : (match List.lookup (['r','e','s','p','o','n','s','e']) fields with
        | some v => v
        | none => Json.str emptyObjStr) with
      | str rawText =>
        rw [hraw] at h
        simp only at h
        cases hload : json_load rawText with
        | none => rw [hload] at h; exact absurd h (by simp)
        | some data =>
          rw [hload] at h
          cases data with
          | obj dataFields =>
            simp only at h
            cases hit : jsonIterate (match
                List.lookup (['p','r','o','p','o','s','i','t','i','o','n','s']) dataFields with
              | some v => v
              | none => Json.arr []) with
            | none => rw [hit] at h; exact absurd h (by simp)
            | some items =>
              rw [hit] at h
              simp only [Option.some_inj] at h
              exact ⟨items, h.symm⟩
          | null => exact absurd h (by simp)
          | bool b => exact absurd h (by simp)
          | num n => exact absurd h (by simp)
          | str s => exact absurd h (by simp)
          | arr l => exact absurd h (by simp)
      | null => rw [hraw] at h; exact absurd h (by simp)
      | bool b => rw [hraw] at h; exact absurd h (by simp)
      | num n => rw [hraw] at h; exact absurd h (by simp)
      | arr l => rw [hraw] at h; exact absurd h (by simp)
      | obj o => rw [hraw] at h; exact absurd h (by simp)

/-- C3: proposition items that are plain strings contribute themselves,
dict items contribute the first of `proposition`/`statement`/`text` holding
a string, items without usable text are dropped, and every proposition the
chunker returns has a non-empty `text`. -/
theorem C3_proposition_text (els : List Element) (outcome : HttpResult)
    (props : List Proposition) (items : List Json) (s : Str) (fields : List (Str × Json))
    (h : chunker_chunk_batch_into_propositions els outcome = some props) :
    (∀ p ∈ props, p.text ≠ []) ∧
    (itemText (Json.str s) = s) ∧
    (List.lookup (['p','r','o','p','o','s','i','t','i','o','n']) fields = some (Json.str s) →
      itemText (Json.obj fields) = s) ∧
    ((∀ t, List.lookup (['p','r','o','p','o','s','i','t','i','o','n']) fields ≠
        some (Json.str t)) →
      List.lookup (['s','t','a','t','e','m','e','n','t']) fields = some (Json.str s) →
      itemText (Json.obj fields) = s) ∧
    ((∀ t, List.lookup (['p','r','o','p','o','s','i','t','i','o','n']) fields ≠
        some (Json.str t)) →
      (∀ t, List.lookup (['s','t','a','t','e','m','e','n','t']) fields ≠
        some (Json.str t)) →
      List.lookup (['t','e','x','t']) fields = some (Json.str s) →
      itemText (Json.obj fields) = s) ∧
    (enrichAll els items =
      ((items.map itemText).filter (fun t => !t.isEmpty)).map (enrichProp els)) := by
  refine ⟨?_, rfl, ?_, ?_, ?_, enrichAll_eq els items⟩
  · obtain ⟨items', rfl⟩ := chunker_some_inv els outcome props h
    exact fun p hp => enrichAll_text_ne_nil els items' p hp
  · intro hl
    simp [itemText, hl]
  · intro h1 h2
    cases hv : List.lookup (['p','r','o','p','o','s','i','t','i','o','n']) fields with
    | none => simp [itemText, hv, h2]
    | some v =>
      cases v with
      | str t => exact absurd hv (h1 t)
      | null => simp [itemText, hv, h2]
      | bool b => simp [itemText, hv, h2]
      | num n => simp [itemText, hv, h2]
      | arr l => simp [itemText, hv, h2]
      | obj o => simp [itemText, hv, h2]
  · intro h1 h2 h3
    cases hv : List.lookup (['p','r','o','p','o','s','i','t','i','o','n']) fields with
    | none =>
      cases hw : List.lookup (['s','t','a','t','e','m','e','n','t']) fields with
      | none => simp [itemText, hv, hw, h3]
      | some w =>
        cases w with
        | str t => exact absurd hw (h2 t)
        | null => simp [itemText, hv, hw, h3]
        | bool b => simp [itemText, hv, hw, h3]
        | num n => simp [itemText, hv, hw, h3]
        | arr l => simp [itemText, hv, hw, h3]
        | obj o => simp [itemText, hv, hw, h3]
    | some v =>
      cases v with
      | str t => exact absurd hv (h1 t)
      | null =>
        cases hw : List.lookup (['s','t','a','t','e','m','e','n','t']) fields with
        | none => simp [itemText, hv, hw, h3]
        | some w =>
          cases w with
          | str t => exact absurd hw (h2 t)
          | null => simp [itemText, hv, hw, h3]
          | bool b => simp [itemText, hv, hw, h3]
          | num n => simp [itemText, hv, hw, h3]
          | arr l => simp [itemText, hv, hw, h3]
          | obj o => simp [itemText, hv, hw, h3]
      | bool b =>
        cases hw : List.lookup (['s','t','a','t','e','m','e','n','t']) fields with
        | none => simp [itemText, hv, hw, h3]
        | some w =>
          cases w with
          | str t => exact absurd hw (h2 t)
          | null => simp [itemText, hv, hw, h3]
          | bool b2 => simp [itemText, hv, hw, h3]
          | num n => simp [itemText, hv, hw, h3]
          | arr l => simp [itemText, hv, hw, h3]
          | obj o => simp [itemText, hv, hw, h3]
      | num n =>
        cases hw : List.lookup (['s','t','a','t','e','m','e','n','t']) fields with
        | none => simp [itemText, hv, hw, h3]
        | some w =>
          cases w with
          | str t => exact absurd hw (h2 t)
          | null => simp [itemText, hv, hw, h3]
          | bool b => simp [itemText, hv, hw, h3]
          | num n2 => simp [itemText, hv, hw, h3]
          | arr l => simp [itemText, hv, hw, h3]
          | obj o => simp [itemText, hv, hw, h3]
      | arr l =>
        cases hw : List.lookup (['s','t','a','t','e','m','e','n','t']) fields with
        | none => simp [itemText, hv, hw, h3]
        | some w =>
          cases w with
          | str t => exact absurd hw (h2 t)
          | null => simp [itemText, hv, hw, h3]
          | bool b => simp [itemText, hv, hw, h3]
          | num n => simp [itemText, hv, hw, h3]
          | arr l2 => simp [itemText, hv, hw, h3]
          | obj o => simp [itemText, hv, hw, h3]
      | obj o =>
        cases hw : List.lookup (['s','t','a','t','e','m','e','n','t']) fields with
        | none => simp [itemText, hv, hw, h3]
        | some w =>
          cases w with
          | str t => exact absurd hw (h2 t)
          | null => simp [itemText, hv, hw, h3]
          | bool b => simp [itemText, hv, hw, h3]
          | num n => simp [itemText, hv, hw, h3]
          | arr l => simp [itemText, hv, hw, h3]
          | obj o2 => simp [itemText, hv, hw, h3]

/-- Witness for C3 at a concrete chunker run: both returned propositions
have non-empty text, and the dict item contributed its `proposition`
key. -/
theorem C3_proposition_text_witness :
    ({ text := "the defendant signed the lease".data,
       document_name := "unknown".data, page_number := none } : Proposition).text ≠ [] ∧
    itemText (Json.obj [(['p','r','o','p','o','s','i','t','i','o','n'],
      Json.str ("rent was due monthly".data))]) = "rent was due monthly".data := by
  have hc := C3_proposition_text [] (HttpResult.success (some exampleResponseBody))
    exampleProps [] ("rent was due monthly".data)
    [(['p','r','o','p','o','s','i','t','i','o','n'], Json.str ("rent was due monthly".data))]
    (by decide)
  exact ⟨hc.1 _ (by decide), hc.2.2.1 (by decide)⟩

/-- C5: a failed HTTP call or a non-JSON response body makes the chunker
return the `None` sentinel; a sentinel from any batch makes the ingest
loop return `None` whatever batches would follow, and the document ends
with no file written and no upload. -/
theorem C5_sentinel_abort (els b : List Element) (bs : List (List Element))
    (oracle : Nat → HttpResult) (k : Nat) (r2 : Bool) :
    (chunker_chunk_batch_into_propositions els HttpResult.requestError = none) ∧
    (chunker_chunk_batch_into_propositions els (HttpResult.success none) = none) ∧
    (chunker_chunk_batch_into_propositions b (oracle k) = none →
      runBatches oracle (b :: bs) k = none) ∧
    (runBatches oracle (toBatches els) 0 = none →
      process_document r2 oracle els = { savedFile := none, uploaded := false }) := by
  refine ⟨rfl, rfl, ?_, ?_⟩
  · intro h
    simp [runBatches, h]
  · intro h
    simp [process_document, h]

/-- Witness for C5: with a connection failure on the only batch of a
one-element document, the ingest loop yields `None` and the document
produces no file and no upload. -/
theorem C5_sentinel_abort_witness :
    runBatches (fun _ => HttpResult.requestError)
      [[({ text := none, metadata := none } : Element)]] 0 = none ∧
    process_document true (fun _ => HttpResult.requestError)
      [({ text := none, metadata := none } : Element)] =
      { savedFile := none, uploaded := false } := by
  have hb : toBatches [({ text := none, metadata := none } : Element)] =
      [[({ text := none, metadata := none } : Element)]] := by
    simp [toBatches]
  have h3 := (C5_sentinel_abort [] [({ text := none, metadata := none } : Element)] []
    (fun _ => HttpResult.requestError) 0 true).2.2.1 rfl
  refine ⟨h3, ?_⟩
  refine (C5_sentinel_abort [({ text := none, metadata := none } : Element)]
    [] [] (fun _ => HttpResult.requestError) 0 true).2.2.2 ?_
  rw [hb]
  exact h3

/-- C9: after successful chunking, the processed JSON file is uploaded to
object storage exactly when a client is configured and at least one
proposition was produced; with no client the file is still written
locally. -/
theorem C9_upload_condition (creds : Bool) (oracle : Nat → HttpResult) (els : List Element)
    (allProps : List Proposition)
    (h : runBatches oracle (toBatches els) 0 = some allProps) :
    (process_document (get_r2_client creds) oracle els).uploaded =
      (get_r2_client creds && !allProps.isEmpty) ∧
    (process_document (get_r2_client creds) oracle els).savedFile =
      some (dumpProps allProps) ∧
    (creds = false →
      (process_document (get_r2_client creds) oracle els).uploaded = false) := by
  refine ⟨?_, ?_, ?_⟩
  · simp [process_document, h]
  · simp [process_document, h]
  · intro hc
    simp [process_document, h, get_r2_client, hc]

/-- Witness for C9: a document whose single batch chunks into two
propositions is uploaded when credentials are configured, and a document
with no propositions is not uploaded even with credentials; without
credentials the file is written but not uploaded. -/
theorem C9_upload_condition_witness :
    (process_document (get_r2_client true)
      (fun _ => HttpResult.success (some exampleResponseBody))
      [({ text := none, metadata := none } : Element)]).uploaded = true ∧
    (process_document (get_r2_client true) (fun _ => HttpResult.requestError) []).uploaded =
      false ∧
    (process_document (get_r2_client false)
      (fun _ => HttpResult.success (some exampleResponseBody))
      [({ text := none, metadata := none } : Element)]).uploaded = false ∧
    (process_document (get_r2_client false)
      (fun _ => HttpResult.success (some exampleResponseBody))
      [({ text := none, metadata := none } : Element)]).savedFile =
      some (dumpProps exampleProps) := by
  have hb : toBatches [({ text := none, metadata := none } : Element)] =
      [[({ text := none, metadata := none } : Element)]] := by
    simp [toBatches]
  have hrun : runBatches (fun _ => HttpResult.success (some exampleResponseBody))
      (toBatches [({ text := none, metadata := none } : Element)]) 0 =
      some exampleProps := by
    rw [hb]
    simp only [runBatches]
    decide
  have hrun0 : runBatches (fun _ => HttpResult.requestError) (toBatches ([] : List Element)) 0 =
      some [] := by
    simp [toBatches, runBatches]
  refine ⟨?_, ?_, ?_, ?_⟩
  · rw [(C9_upload_condition true _ _ exampleProps hrun).1]
    decide
  · rw [(C9_upload_condition true _ _ [] hrun0).1]
    decide
  · exact (C9_upload_condition false _ _ exampleProps hrun).2.2 rfl
  · exact (C9_upload_condition false _ _ exampleProps hrun).2.1

/-- C10: the chunker duplicated in src/cloud_utils.py is behaviorally
identical to the one in src/chunker.py — on every batch of elements and
every model-server outcome the two return the same value. -/
theorem C10_duplicate_chunker_equiv (els : List Element) (outcome : HttpResult) :
    chunker_chunk_batch_into_propositions els outcome =
      cloud_chunk_batch_into_propositions els outcome := rfl

/-- Counterexample to C6 as stated: for a proposition that matches no
element, the chunker's default `document_name` is the literal string
`'unknown'`; carried through the JSON file and the indexer's metadata
sanitization it reaches the vector store as `"unknown"`, which is not the
empty string. -/
theorem C6_source_matching_counterexample :
    chunker_chunk_batch_into_propositions
      [({ text := some ("zzz".data), metadata := none } : Element)]
      (HttpResult.success (some unmatchedResponseBody)) = some [unmatchedProp] ∧
    json_load (dumpProps [unmatchedProp]) = some (Json.arr [propToJson unmatchedProp]) ∧
    (createdRecords ("doc".data) (fun _ => false)
      [[(['t','e','x','t'], Json.str ("an entirely unmatched statement".data)),
        (['d','o','c','u','m','e','n','t','_','n','a','m','e'],
          Json.str ("unknown".data)),
        (['p','a','g','e','_','n','u','m','b','e','r'], Json.null)]]).map
      (fun r => List.lookup (['d','o','c','u','m','e','n','t','_','n','a','m','e']) r.metadata) =
      [some (Json.str ("unknown".data))] ∧
    Json.str ("unknown".data) ≠ Json.str [] := by
  refine ⟨by decide, json_load_dumpProps [unmatchedProp], ?_, by decide⟩
  rw [createdRecords_eq]
  decide

/-- C6 (amended): each surviving proposition is attributed to the first
element whose text contains it or is contained in it; with no match the
metadata stays at the chunker defaults `document_name = 'unknown'`,
`page_number = None`, and the record reaches the vector store with
`document_name` the literal string `'unknown'` and `page_number` `0`
rather than null. -/
theorem C6_source_matching_amended (els : List Element) (t : Str) (el : Element)
    (ch : Chunk) :
    (findSource els t = els.find? (fun e => match e.text with
      | some et => isSubstr et t || isSubstr t et
      | none => false)) ∧
    (findSource els t = some el →
      ∃ et, el.text = some et ∧ (isSubstr et t || isSubstr t et) = true) ∧
    (findSource els t = none →
      enrichProp els t = Proposition.mk t (['u','n','k','n','o','w','n']) none) ∧
    (dictGet ch (['d','o','c','u','m','e','n','t','_','n','a','m','e']) =
        Json.str (['u','n','k','n','o','w','n']) →
      List.lookup (['d','o','c','u','m','e','n','t','_','n','a','m','e']) (cleanMetaOf ch) =
        some (Json.str (['u','n','k','n','o','w','n']))) ∧
    (dictGet ch (['p','a','g','e','_','n','u','m','b','e','r']) = Json.null →
      List.lookup (['p','a','g','e','_','n','u','m','b','e','r']) (cleanMetaOf ch) =
        some (Json.num 0)) := by
  have e1 : ((['p','a','g','e','_','n','u','m','b','e','r'] : Str) ==
      ['d','o','c','u','m','e','n','t','_','n','a','m','e']) = false := by decide
  have e2 : ((['p','a','g','e','_','n','u','m','b','e','r'] : Str) ==
      ['p','a','g','e','_','n','u','m','b','e','r']) = true := by decide
  have e3 : ((['d','o','c','u','m','e','n','t','_','n','a','m','e'] : Str) ==
      ['d','o','c','u','m','e','n','t','_','n','a','m','e']) = true := by decide
  refine ⟨rfl, ?_, ?_, ?_, ?_⟩
  · intro h
    have hp := List.find?_some h
    cases het : el.text with
    | none => rw [het] at hp; simp at hp
    | some et =>
      rw [het] at hp
      exact ⟨et, rfl, hp⟩
  · intro h
    simp [enrichProp, h]
  · intro h
    simp only [cleanMetaOf, List.lookup, e3, h]
    rfl
  · intro h
    simp only [cleanMetaOf, List.lookup, e1, e2, h]
    rfl

/-- Witness for C6 (amended): a matching element is found by bidirectional
containment; an unmatched proposition keeps the `'unknown'` default and
its stored metadata is `"unknown"` / `0`. -/
theorem C6_source_matching_amended_witness :
    (∃ et, ({ text := some ("the rent".data), metadata := none } : Element).text = some et ∧
      (isSubstr et ("the rent was due".data) ||
        isSubstr ("the rent was due".data) et) = true) ∧
    enrichProp [({ text := some ("zzz".data), metadata := none } : Element)]
      ("an entirely unmatched statement".data) =
      { text := "an entirely unmatched statement".data,
        document_name := ['u','n','k','n','o','w','n'], page_number := none } ∧
    List.lookup (['p','a','g','e','_','n','u','m','b','e','r'])
      (cleanMetaOf [(['p','a','g','e','_','n','u','m','b','e','r'], Json.null)]) =
      some (Json.num 0) := by
  refine ⟨?_, ?_, ?_⟩
  · exact (C6_source_matching_amended
      [({ text := some ("the rent".data), metadata := none } : Element)]
      ("the rent was due".data)
      ({ text := some ("the rent".data), metadata := none } : Element) []).2.1 (by decide)
  · exact (C6_source_matching_amended
      [({ text := some ("zzz".data), metadata := none } : Element)]
      ("an entirely unmatched statement".data)
      ({ text := none, metadata := none } : Element) []).2.2.1 (by decide)
  · exact (C6_source_matching_amended [] [] ({ text := none, metadata := none } : Element)
      [(['p','a','g','e','_','n','u','m','b','e','r'], Json.null)]).2.2.2.2 (by decide)

/-- C4: serializing a list of propositions to a JSON file as the ingester
does (`json.dump(..., ensure_ascii=False, indent=4)`) and parsing that
file back as the indexer does (`json.load`) yields a list of objects
identical to the original. -/
theorem C4_json_roundtrip (ps : List Proposition) :
    json_load (dumpProps ps) = some (Json.arr (ps.map propToJson)) :=
  json_load_dumpProps ps
